import Mathlib

/-!
Verification of the soboro-mcp server core against a shallow embedding of its
TypeScript sources (src/core/swap-service.ts, src/core/wallet-service.ts,
src/core/price-service.ts, src/stellar/utils.ts, src/stellar/client.ts,
src/stellar/errors.ts, src/soroswap/client.ts, src/mcp/server.ts).

Modelling conventions:
* JavaScript numbers are modelled as exact rationals (`ℚ`); a JavaScript
  number holds a binary64 value and every binary64 value is a rational.
  String-to-number conversion (`parseFloat`) is modelled exactly: the decimal
  prefix of the string is parsed to a rational and then rounded to the
  nearest binary64 value (round half to even), with unbounded exponent
  (overflow and the subnormal range are outside the magnitudes exercised
  here).  A `parseFloat` result of NaN is modelled as `none`.
* `Number.prototype.toString` renders the shortest decimal string that parses
  back (via `parseFloat`) to the same binary64 value; where the sources
  immediately re-parse such a string the round-trip is folded away, and where
  a rendered number only appears inside a message string, the rendering is
  kept as an abstract parameter `numStr`.
* Asynchronous service methods are modelled in a writer-plus-exception monad
  `M`: a computation yields an `Except Err` result together with the list of
  external oracle calls it performed, in order.  A thrown JavaScript
  exception is an `Err` value; `try { .. } catch { .. }` is `M.tryCatch`.
* The external network collaborators (the Horizon ledger server reached via
  `server.loadAccount`, and the Soroswap HTTP API reached via `axios`) are an
  `Env` of response functions: every network call in the sources bottoms out
  in one of these.
-/

namespace Soboro

/-! ### Binary64 rounding model (for JavaScript `parseFloat` / number compare) -/

/-- Floor of log₂ on naturals, with explicit fuel so that the definition is
structurally recursive and reduces in the kernel. -/
def log2fuel : Nat → Nat → Nat
  | 0, _ => 0
  | fuel + 1, n => if n < 2 then 0 else log2fuel fuel (n / 2) + 1

/-- Floor of log₂ of a natural number. -/
def natLog2 (n : Nat) : Nat := log2fuel n n

theorem log2fuel_spec :
    ∀ fuel n, 0 < n → n ≤ fuel →
      2 ^ log2fuel fuel n ≤ n ∧ n < 2 ^ (log2fuel fuel n + 1) := by
  intro fuel
  induction fuel with
  | zero => intro n hn hle; omega
  | succ fuel ih =>
    intro n hn hle
    by_cases h : n < 2
    · simp only [log2fuel, if_pos h]
      constructor
      · simpa using hn
      · simpa using h
    · have h2 : 2 ≤ n := by omega
      have hmpos : 0 < n / 2 := Nat.div_pos h2 (by omega)
      have hmle : n / 2 ≤ fuel := by
        have := Nat.div_lt_self hn (by omega : 1 < 2)
        omega
      obtain ⟨hlo, hhi⟩ := ih (n / 2) hmpos hmle
      simp only [log2fuel, if_neg h]
      constructor
      · calc 2 ^ (log2fuel fuel (n / 2) + 1) = 2 * 2 ^ log2fuel fuel (n / 2) := by ring
        _ ≤ 2 * (n / 2) := by omega
        _ ≤ n := by omega
      · calc n ≤ 2 * (n / 2) + 1 := by omega
        _ < 2 * 2 ^ (log2fuel fuel (n / 2) + 1) := by omega
        _ = 2 ^ (log2fuel fuel (n / 2) + 1 + 1) := by ring

theorem natLog2_spec (n : Nat) (hn : 0 < n) :
    2 ^ natLog2 n ≤ n ∧ n < 2 ^ (natLog2 n + 1) :=
  log2fuel_spec n n hn le_rfl

/-- Floor of log₂ of a positive rational: the unique `k` with
`2 ^ k ≤ q < 2 ^ (k + 1)` (arbitrary on non-positive input). -/
def ratLog2 (q : ℚ) : Int :=
  let g : Int := (natLog2 q.num.toNat : Int) - (natLog2 q.den : Int)
  if (2 : ℚ) ^ g ≤ q then g else g - 1

theorem ratLog2_spec (q : ℚ) (hq : 0 < q) :
    (2 : ℚ) ^ ratLog2 q ≤ q ∧ q < 2 ^ (ratLog2 q + 1) := by
  have hnum : 0 < q.num := Rat.num_pos.mpr hq
  have hden : 0 < q.den := q.den_pos
  obtain ⟨halo, hahi⟩ := natLog2_spec q.num.toNat (by omega)
  obtain ⟨hblo, hbhi⟩ := natLog2_spec q.den hden
  set la : Nat := natLog2 q.num.toNat with hla
  set lb : Nat := natLog2 q.den with hlb
  set A : ℚ := (q.num.toNat : ℚ) with hA
  set B : ℚ := (q.den : ℚ) with hB
  have hBpos : (0 : ℚ) < B := by rw [hB]; exact_mod_cast hden
  have hq_eq : q = A / B := by
    rw [hA, hB]
    have h1 : ((q.num.toNat : ℤ) : ℚ) = (q.num : ℚ) := by
      rw [Int.toNat_of_nonneg (le_of_lt hnum)]
    push_cast at h1 ⊢
    rw [h1, Rat.num_div_den]
  have hAlo : (2 : ℚ) ^ (la : ℤ) ≤ A := by
    rw [zpow_natCast, hA]; exact_mod_cast halo
  have hAhi : A < (2 : ℚ) ^ ((la : ℤ) + 1) := by
    have he : ((la : ℤ) + 1) = ((la + 1 : ℕ) : ℤ) := by push_cast; ring
    rw [he, zpow_natCast, hA]; exact_mod_cast hahi
  have hBlo : (2 : ℚ) ^ (lb : ℤ) ≤ B := by
    rw [zpow_natCast, hB]; exact_mod_cast hblo
  have hBhi : B ≤ (2 : ℚ) ^ ((lb : ℤ) + 1) := by
    have he : ((lb : ℤ) + 1) = ((lb + 1 : ℕ) : ℤ) := by push_cast; ring
    rw [he, zpow_natCast, hB]; exact_mod_cast le_of_lt hbhi
  have hbr1 : (2 : ℚ) ^ ((la : ℤ) - lb - 1) ≤ q := by
    rw [hq_eq, le_div_iff₀ hBpos]
    calc (2 : ℚ) ^ ((la : ℤ) - lb - 1) * B
        ≤ (2 : ℚ) ^ ((la : ℤ) - lb - 1) * (2 : ℚ) ^ ((lb : ℤ) + 1) := by
          exact mul_le_mul_of_nonneg_left hBhi (by positivity)
      _ = (2 : ℚ) ^ ((la : ℤ) - lb - 1 + ((lb : ℤ) + 1)) :=
          (zpow_add₀ two_ne_zero _ _).symm
      _ = (2 : ℚ) ^ (la : ℤ) := by congr 1; ring
      _ ≤ A := hAlo
  have hbr2 : q < (2 : ℚ) ^ ((la : ℤ) - lb + 1) := by
    rw [hq_eq, div_lt_iff₀ hBpos]
    calc A < (2 : ℚ) ^ ((la : ℤ) + 1) := hAhi
      _ = (2 : ℚ) ^ ((la : ℤ) - lb + 1 + (lb : ℤ)) := by congr 1; ring
      _ = (2 : ℚ) ^ ((la : ℤ) - lb + 1) * (2 : ℚ) ^ (lb : ℤ) :=
          zpow_add₀ two_ne_zero _ _
      _ ≤ (2 : ℚ) ^ ((la : ℤ) - lb + 1) * B := by
          exact mul_le_mul_of_nonneg_left hBlo (by positivity)
  rw [ratLog2]
  simp only [← hla, ← hlb]
  by_cases hc : (2 : ℚ) ^ ((la : ℤ) - lb) ≤ q
  · rw [if_pos hc]
    exact ⟨hc, by convert hbr2 using 2⟩
  · rw [if_neg hc]
    constructor
    · convert hbr1 using 2
    · have : q < (2 : ℚ) ^ ((la : ℤ) - lb) := lt_of_not_le hc
      convert this using 2
      ring

/-- Nearest integer to a rational, ties to even. -/
def roundHalfEven (q : ℚ) : Int :=
  if q - ⌊q⌋ < 1 / 2 then ⌊q⌋
  else if (1 : ℚ) / 2 < q - ⌊q⌋ then ⌊q⌋ + 1
  else if ⌊q⌋ % 2 = 0 then ⌊q⌋ else ⌊q⌋ + 1

theorem roundHalfEven_ge_floor (q : ℚ) : ⌊q⌋ ≤ roundHalfEven q := by
  rw [roundHalfEven]; split_ifs <;> omega

theorem roundHalfEven_le_floor_add_one (q : ℚ) : roundHalfEven q ≤ ⌊q⌋ + 1 := by
  rw [roundHalfEven]; split_ifs <;> omega

theorem roundHalfEven_le (q : ℚ) : (roundHalfEven q : ℚ) ≤ q + 1 / 2 := by
  have hfl := Int.floor_le q
  rw [roundHalfEven]; split_ifs with h1 h2 h3 <;> push_cast <;> linarith

theorem le_roundHalfEven (q : ℚ) : q - 1 / 2 ≤ (roundHalfEven q : ℚ) := by
  have hfl := Int.lt_floor_add_one q
  rw [roundHalfEven]; split_ifs with h1 h2 h3 <;> push_cast <;> linarith

theorem roundHalfEven_mono {p q : ℚ} (h : p ≤ q) :
    roundHalfEven p ≤ roundHalfEven q := by
  have hf : ⌊p⌋ ≤ ⌊q⌋ := Int.floor_le_floor h
  rcases eq_or_lt_of_le hf with heq | hlt
  · have hr : p - (⌊p⌋ : ℚ) ≤ q - (⌊q⌋ : ℚ) := by
      rw [← heq]; exact sub_le_sub_right h _
    rw [roundHalfEven, roundHalfEven, ← heq]
    rw [← heq] at hr
    split_ifs <;> first | omega | (exfalso; linarith)
  · have h1 := roundHalfEven_le_floor_add_one p
    have h2 := roundHalfEven_ge_floor q
    omega

/-- Rounds a rational to the nearest binary64 value (round half to even),
with unbounded exponent: overflow and the subnormal range are not modelled,
which is accurate for the magnitudes a token balance or amount can take. -/
def roundToF64 (q : ℚ) : ℚ :=
  if q = 0 then 0
  else if 0 < q then
    (roundHalfEven (q * 2 ^ ((52 : ℤ) - ratLog2 q)) : ℚ) * 2 ^ (ratLog2 q - (52 : ℤ))
  else
    -((roundHalfEven (-q * 2 ^ ((52 : ℤ) - ratLog2 (-q))) : ℚ) * 2 ^ (ratLog2 (-q) - (52 : ℤ)))

theorem roundToF64_pos_bounds (q : ℚ) (hq : 0 < q) :
    (2 : ℚ) ^ ratLog2 q ≤ roundToF64 q ∧ roundToF64 q ≤ 2 ^ (ratLog2 q + 1) := by
  obtain ⟨h1, h2⟩ := ratLog2_spec q hq
  set k := ratLog2 q with hk
  set x : ℚ := q * 2 ^ ((52 : ℤ) - k) with hx
  have hxlo : (2 : ℚ) ^ (52 : ℤ) ≤ x := by
    rw [hx]
    calc (2 : ℚ) ^ (52 : ℤ) = (2 : ℚ) ^ (k + ((52 : ℤ) - k)) := by congr 1; ring
      _ = (2 : ℚ) ^ k * 2 ^ ((52 : ℤ) - k) := zpow_add₀ two_ne_zero _ _
      _ ≤ q * 2 ^ ((52 : ℤ) - k) := by
          exact mul_le_mul_of_nonneg_right h1 (by positivity)
  have hxhi : x < (2 : ℚ) ^ (53 : ℤ) := by
    rw [hx]
    calc q * 2 ^ ((52 : ℤ) - k) < 2 ^ (k + 1) * 2 ^ ((52 : ℤ) - k) := by
          exact mul_lt_mul_of_pos_right h2 (by positivity)
      _ = (2 : ℚ) ^ (k + 1 + ((52 : ℤ) - k)) := (zpow_add₀ two_ne_zero _ _).symm
      _ = (2 : ℚ) ^ (53 : ℤ) := by congr 1; ring
  have h52 : ((2 ^ 52 : ℤ) : ℚ) = (2 : ℚ) ^ (52 : ℤ) := by norm_num
  have h53 : ((2 ^ 53 : ℤ) : ℚ) = (2 : ℚ) ^ (53 : ℤ) := by norm_num
  have hr1 : (2 : ℚ) ^ (52 : ℤ) ≤ (roundHalfEven x : ℚ) := by
    have hfl : ((2 ^ 52 : ℤ) : ℚ) ≤ x := by rw [h52]; exact hxlo
    have hfl2 : (2 ^ 52 : ℤ) ≤ ⌊x⌋ := Int.le_floor.mpr hfl
    have hge := roundHalfEven_ge_floor x
    rw [← h52]
    exact_mod_cast le_trans hfl2 hge
  have hr2 : (roundHalfEven x : ℚ) ≤ (2 : ℚ) ^ (53 : ℤ) := by
    have hle := roundHalfEven_le x
    have hlt : (roundHalfEven x : ℚ) < ((2 ^ 53 : ℤ) : ℚ) + 1 := by
      rw [h53]; linarith
    have hint : roundHalfEven x < (2 ^ 53 : ℤ) + 1 := by exact_mod_cast hlt
    have hle2 : roundHalfEven x ≤ (2 ^ 53 : ℤ) := by omega
    rw [← h53]
    exact_mod_cast hle2
  have hval : roundToF64 q = (roundHalfEven x : ℚ) * 2 ^ (k - (52 : ℤ)) := by
    rw [roundToF64, if_neg (ne_of_gt hq), if_pos hq, ← hk, ← hx]
  constructor
  · rw [hval]
    calc (2 : ℚ) ^ k = (2 : ℚ) ^ ((52 : ℤ) + (k - 52)) := by congr 1; ring
      _ = (2 : ℚ) ^ (52 : ℤ) * 2 ^ (k - (52 : ℤ)) := zpow_add₀ two_ne_zero _ _
      _ ≤ (roundHalfEven x : ℚ) * 2 ^ (k - (52 : ℤ)) := by
          exact mul_le_mul_of_nonneg_right hr1 (by positivity)
  · rw [hval]
    calc (roundHalfEven x : ℚ) * 2 ^ (k - (52 : ℤ))
        ≤ (2 : ℚ) ^ (53 : ℤ) * 2 ^ (k - (52 : ℤ)) := by
          exact mul_le_mul_of_nonneg_right hr2 (by positivity)
      _ = (2 : ℚ) ^ ((53 : ℤ) + (k - 52)) := (zpow_add₀ two_ne_zero _ _).symm
      _ = (2 : ℚ) ^ (k + 1) := by congr 1; ring

theorem roundToF64_nonneg {q : ℚ} (h : 0 ≤ q) : 0 ≤ roundToF64 q := by
  rcases eq_or_lt_of_le h with heq | hpos
  · rw [roundToF64, if_pos heq.symm]
  · have := (roundToF64_pos_bounds q hpos).1
    have hp : (0 : ℚ) < 2 ^ ratLog2 q := by positivity
    linarith

theorem roundToF64_pos {q : ℚ} (h : 0 < q) : 0 < roundToF64 q := by
  have := (roundToF64_pos_bounds q h).1
  have hp : (0 : ℚ) < 2 ^ ratLog2 q := by positivity
  linarith

theorem roundToF64_mono {p q : ℚ} (h0 : 0 ≤ p) (h : p ≤ q) :
    roundToF64 p ≤ roundToF64 q := by
  rcases eq_or_lt_of_le h0 with heq | hppos
  · rw [roundToF64, if_pos heq.symm]
    exact roundToF64_nonneg (le_trans h0 h)
  · have hqpos : 0 < q := lt_of_lt_of_le hppos h
    obtain ⟨hp1, hp2⟩ := ratLog2_spec p hppos
    obtain ⟨hq1, hq2⟩ := ratLog2_spec q hqpos
    have hkle : ratLog2 p ≤ ratLog2 q := by
      by_contra hcon
      push_neg at hcon
      have h1 : ratLog2 q + 1 ≤ ratLog2 p := by omega
      have h2 : (2 : ℚ) ^ (ratLog2 q + 1) ≤ 2 ^ ratLog2 p :=
        zpow_le_zpow_right₀ (by norm_num) h1
      linarith
    rcases eq_or_lt_of_le hkle with hkeq | hklt
    · have hvp : roundToF64 p =
          (roundHalfEven (p * 2 ^ ((52 : ℤ) - ratLog2 p)) : ℚ) * 2 ^ (ratLog2 p - (52 : ℤ)) := by
        rw [roundToF64, if_neg (ne_of_gt hppos), if_pos hppos]
      have hvq : roundToF64 q =
          (roundHalfEven (q * 2 ^ ((52 : ℤ) - ratLog2 q)) : ℚ) * 2 ^ (ratLog2 q - (52 : ℤ)) := by
        rw [roundToF64, if_neg (ne_of_gt hqpos), if_pos hqpos]
      rw [hvp, hvq, ← hkeq]
      have harg : p * 2 ^ ((52 : ℤ) - ratLog2 p) ≤ q * 2 ^ ((52 : ℤ) - ratLog2 p) := by
        exact mul_le_mul_of_nonneg_right h (by positivity)
      have hrle : (roundHalfEven (p * 2 ^ ((52 : ℤ) - ratLog2 p)) : ℚ)
          ≤ (roundHalfEven (q * 2 ^ ((52 : ℤ) - ratLog2 p)) : ℚ) := by
        exact_mod_cast roundHalfEven_mono harg
      exact mul_le_mul_of_nonneg_right hrle (by positivity)
    · have hb1 := (roundToF64_pos_bounds p hppos).2
      have hb2 := (roundToF64_pos_bounds q hqpos).1
      have hstep : (2 : ℚ) ^ (ratLog2 p + 1) ≤ 2 ^ ratLog2 q :=
        zpow_le_zpow_right₀ (by norm_num) (by omega)
      linarith

/-! ### JavaScript `parseFloat` -/

/-- Numeric value of a list of decimal digit characters, most significant
first. -/
def digitsVal (cs : List Char) : Nat :=
  cs.foldl (fun acc c => acc * 10 + (c.toNat - 48)) 0

/-- Exponent suffix of a decimal literal: `e`/`E`, an optional sign and
digits.  A malformed exponent suffix contributes a factor of one, as in
JavaScript `parseFloat` (which ignores trailing garbage). -/
def parseExpDigits (cs : List Char) : Int :=
  match cs.span Char.isDigit with
  | ([], _) => 0
  | (ds, _) => (digitsVal ds : Int)

/-- Parses the optional sign of an exponent suffix. -/
def parseExpSigned : List Char → Int
  | '+' :: r => parseExpDigits r
  | '-' :: r => -parseExpDigits r
  | r => parseExpDigits r

/-- Parses the optional exponent suffix of a decimal literal. -/
def parseExp : List Char → Int
  | 'e' :: r => parseExpSigned r
  | 'E' :: r => parseExpSigned r
  | _ => 0

/-- Exact rational value of the decimal-literal prefix of a character list:
integer digits, an optional fraction, an optional exponent; trailing garbage
is ignored, as in JavaScript `parseFloat`.  Returns `none` (NaN) when no
digits are present. -/
def parseDecimalAux (cs : List Char) : Option ℚ :=
  match cs.span Char.isDigit with
  | (ds, rest) =>
    match rest with
    | '.' :: r =>
      match r.span Char.isDigit with
      | (fs, rest2) =>
        if ds = [] ∧ fs = [] then none
        else some (((digitsVal ds : ℚ) + (digitsVal fs : ℚ) / 10 ^ fs.length)
          * 10 ^ parseExp rest2)
    | _ =>
      if ds = [] then none
      else some ((digitsVal ds : ℚ) * 10 ^ parseExp rest)

/-- Exact rational value (before binary64 rounding) of the decimal prefix of
a string, after skipping leading whitespace and an optional sign; `none` is
NaN.  (The `Infinity` literal, which no token amount or ledger balance ever
takes, is not modelled and parses as NaN.) -/
def parseDecimal (s : String) : Option ℚ :=
  match s.data.dropWhile Char.isWhitespace with
  | '-' :: r => (parseDecimalAux r).map Neg.neg
  | '+' :: r => parseDecimalAux r
  | r => parseDecimalAux r

/-- Embedding of JavaScript `parseFloat`: the exact decimal value, rounded to
the nearest binary64; `none` is NaN. -/
def parseFloat (s : String) : Option ℚ :=
  (parseDecimal s).map roundToF64

/-! ### Errors thrown by the sources

A thrown JavaScript exception is modelled as an `Err` value.  The
constructors mirror the error classes of src/stellar/errors.ts and
src/soroswap/client.ts; `generic` is a plain `Error`. -/

inductive Err where
  /-- A `SoroswapAPIError` (src/soroswap/client.ts). -/
  | soroswapAPI (msg : String)
  /-- A `StellarInsufficientBalanceError` (src/stellar/errors.ts); fields are
  the constructor arguments `asset`, `required`, `available`, `publicKey`. -/
  | insufficientBalance (asset required available publicKey : String)
  /-- A `StellarTransactionFailedError` (src/stellar/errors.ts). -/
  | txFailed (msg : String)
  /-- A `StellarError` with code `STELLAR_CONNECTION_ERROR`, as produced by
  the default branch of `convertStellarError` (src/stellar/errors.ts). -/
  | stellar (msg : String)
  /-- A plain JavaScript `Error`. -/
  | generic (msg : String)
deriving DecidableEq, Repr

/-- JavaScript `error.message`.  `StellarInsufficientBalanceError` builds its
message in its constructor (src/stellar/errors.ts line 414). -/
def Err.message : Err → String
  | .soroswapAPI m => m
  | .insufficientBalance asset required available _ =>
      "Insufficient balance for " ++ asset ++ ". Required: " ++ required ++
        ", Available: " ++ available
  | .txFailed m => m
  | .stellar m => m
  | .generic m => m

/-- Embedding of `convertStellarError` (src/stellar/errors.ts lines 467-515)
restricted to the error values that can actually reach it in the embedded
code paths: none of the `Err` constructors carries an axios `response`
object, an `ECONNREFUSED`/`ENOTFOUND` `code`, or the name
`BadResponseError` (the Horizon errors that do are wrapped into plain
`Error`s by `stellarClient.getAccount` before any caller converts them), so
every probe of `convertStellarError` fails and the default branch applies:
`new StellarError(error.message, STELLAR_CONNECTION_ERROR)`. -/
def convertStellarError (e : Err) : Err :=
  .stellar e.message

/-! ### The oracle-call monad

Every service method is compiled to a value of `M α`: the `Except Err α`
outcome together with the ordered list of external network calls the method
performed.  `server.loadAccount` (Horizon) underlies `accountExists`,
`getAccount`, `getBalances`, `getTokenBalance`; `GET /quote` (Soroswap API)
underlies `soroswapClient.getQuote`. -/

inductive Event where
  /-- A call to `server.loadAccount` on the Horizon ledger server. -/
  | loadAccount
  /-- A `GET /quote` request to the Soroswap API (`soroswapClient.getQuote`). -/
  | getQuote
deriving DecidableEq, Repr

deriving instance DecidableEq for Except

/-- Outcome of an embedded asynchronous method: an `Except Err` result plus
the trace of oracle calls made, in order. -/
structure M (α : Type) where
  res : Except Err α
  tr : List Event
deriving Repr, DecidableEq

/-- A resolved promise. -/
def M.pure {α : Type} (a : α) : M α := ⟨.ok a, []⟩

/-- A thrown exception. -/
def M.throw {α : Type} (e : Err) : M α := ⟨.error e, []⟩

/-- Sequencing: the second computation runs only when the first did not
throw; the oracle-call traces concatenate. -/
def M.bind {α β : Type} (x : M α) (f : α → M β) : M β :=
  match x.res with
  | .ok a => ⟨(f a).res, x.tr ++ (f a).tr⟩
  | .error e => ⟨.error e, x.tr⟩

instance : Monad M where
  pure := M.pure
  bind := M.bind

/-- Embedding of `try { x } catch (e) { h e }`. -/
def M.tryCatch {α : Type} (x : M α) (h : Err → M α) : M α :=
  match x.res with
  | .ok a => ⟨.ok a, x.tr⟩
  | .error e => ⟨(h e).res, x.tr ++ (h e).tr⟩

/-- Records one oracle call. -/
def M.emit (ev : Event) : M Unit := ⟨.ok (), [ev]⟩

/-- Lifts an `Except` value (a synchronous result or throw). -/
def M.ofExcept {α : Type} (x : Except Err α) : M α := ⟨x, []⟩

theorem M.bind_def {α β : Type} (x : M α) (f : α → M β) :
    x >>= f = M.bind x f := rfl

theorem M.pure_def {α : Type} (a : α) : (Pure.pure a : M α) = M.pure a := rfl

@[simp] theorem M.bind_ok {α β : Type} (a : α) (t : List Event) (f : α → M β) :
    M.bind ⟨.ok a, t⟩ f = ⟨(f a).res, t ++ (f a).tr⟩ := rfl

@[simp] theorem M.bind_error {α β : Type} (e : Err) (t : List Event) (f : α → M β) :
    M.bind ⟨.error e, t⟩ f = ⟨.error e, t⟩ := rfl

@[simp] theorem M.tryCatch_ok {α : Type} (a : α) (t : List Event) (h : Err → M α) :
    M.tryCatch ⟨.ok a, t⟩ h = ⟨.ok a, t⟩ := rfl

@[simp] theorem M.tryCatch_error {α : Type} (e : Err) (t : List Event) (h : Err → M α) :
    M.tryCatch ⟨.error e, t⟩ h = ⟨(h e).res, t ++ (h e).tr⟩ := rfl

/-! ### Domain types (src/types/index.ts) -/

/-- Entry of `StellarBalance` (src/types); only the fields read by the
embedded code paths are listed, plus `asset` and `limit` for shape
fidelity. -/
structure StellarBalance where
  asset : String
  assetType : String
  assetCode : Option String := none
  assetIssuer : Option String := none
  balance : String
  limit : Option String := none
deriving DecidableEq, Repr

/-- A `StellarAccount` (src/types), as produced by `stellarClient.getAccount`
from a Horizon account record; the per-line `mapBalance` conversion from the
raw Horizon wire format is folded into the oracle response. -/
structure StellarAccount where
  publicKey : String
  accountId : String
  sequence : String
  balances : List StellarBalance
deriving DecidableEq, Repr

/-- A `TokenInfo` (src/types). -/
structure TokenInfo where
  symbol : String
  name : String
  decimals : Nat
  assetCode : String
  assetIssuer : Option String := none
deriving DecidableEq, Repr

/-- A `SwapRequest` (src/types). -/
structure SwapRequest where
  fromToken : String
  toToken : String
  amount : ℚ
  slippage : ℚ
  accountSecret : Option String := none
deriving DecidableEq, Repr

/-- A `SwapEstimate` (src/types).  The numeric fields come from
`parseFloat` over quote strings, so each is `Option ℚ` with `none` for
NaN; `priceImpact` is copied as a number. -/
structure SwapEstimate where
  fromToken : String
  toToken : String
  fromAmount : Option ℚ
  toAmount : Option ℚ
  minimumReceived : Option ℚ
  priceImpact : ℚ
  fee : Option ℚ
  path : List String
deriving DecidableEq, Repr

/-- A `SwapResult` (src/types).  `toAmount`, `fee` and `actualReceived` are
`Option ℚ` (`none` for NaN or, for `actualReceived`, an absent field). -/
structure SwapResult where
  success : Bool
  transactionHash : Option String := none
  fromToken : String
  toToken : String
  fromAmount : ℚ
  toAmount : Option ℚ
  actualReceived : Option ℚ := none
  fee : Option ℚ
  timestamp : String
  error : Option String := none
deriving DecidableEq, Repr

/-- The `SwapValidationResult` of src/core/swap-service.ts. -/
structure SwapValidationResult where
  isValid : Bool
  errors : List String
  warnings : List String
deriving DecidableEq, Repr

/-- The numeric trade bounds of `securityConfig` (src/utils/config.ts):
environment-derived values, so parameters of the embedding. -/
structure SecurityConfig where
  maxSlippage : ℚ
  minAmount : ℚ
  maxAmount : ℚ
deriving DecidableEq, Repr

/-- The fields of `stellarConfig` (src/utils/config.ts) read by the swap
service. -/
structure StellarCfg where
  defaultAccountSecret : Option String := none
deriving DecidableEq, Repr

/-- A `SoroswapQuote` as returned by `GET /quote` (src/soroswap/client.ts):
amount fields are strings on the wire. -/
structure SoroswapQuote where
  fromToken : String
  toToken : String
  fromAmount : String
  toAmount : String
  minimumReceived : String
  priceImpact : ℚ
  fee : String
  path : List String
  estimatedGas : String
deriving DecidableEq, Repr

/-- Failure of a `server.loadAccount` call: an HTTP error response with a
status code, or any other network / SDK failure. -/
inductive LoadAccountError where
  | http (status : Nat) (msg : String)
  | other (msg : String)
deriving DecidableEq, Repr

/-- JavaScript `error.message` of a `loadAccount` failure. -/
def LoadAccountError.message : LoadAccountError → String
  | .http _ m => m
  | .other m => m

/-- The external world: response functions for the two network oracles, the
local Stellar SDK key derivation, and the ambient clock/randomness strings.
`numStr` is JavaScript `Number.prototype.toString` (shortest decimal
rendering that `parseFloat` maps back to the same binary64 value); only its
occurrences inside messages are observable in the embedded paths, so it is
kept abstract. -/
structure Env where
  loadAccount : String → Except LoadAccountError StellarAccount
  quoteResponse : String → String → String → ℚ → Except String SoroswapQuote
  keypairPublic : String → Except String String
  numStr : ℚ → String
  timestampStr : String
  mockTxHash : String

/-! ### src/stellar/utils.ts -/

/-- The `KNOWN_TOKENS` record (src/stellar/utils.ts lines 13-28), as a lookup
function. -/
def KNOWN_TOKENS : String → Option TokenInfo := fun s =>
  if s = "XLM" then
    some { symbol := "XLM", name := "Stellar Lumens", decimals := 7,
           assetCode := "XLM" }
  else if s = "USDC" then
    some { symbol := "USDC", name := "USD Coin", decimals := 7,
           assetCode := "USDC",
           assetIssuer := some "GA5ZSEJYB37JRC5AVCIA5MOP4RHTM335X2KGX3IHOJAPP5RE34K4KZVN" }
  else none

/-- JavaScript `String.prototype.toUpperCase` on the embedded (ASCII) token
symbols: uppercase each character. -/
def strUpper (s : String) : String := ⟨s.data.map Char.toUpper⟩

/-- Embedding of `isSupportedToken`: `symbol.toUpperCase() in KNOWN_TOKENS`. -/
def isSupportedToken (symbol : String) : Bool :=
  (KNOWN_TOKENS (strUpper symbol)).isSome

/-- Embedding of `parseBalance` (src/stellar/utils.ts lines 102-110):
`parseFloat`, then throw on NaN or a negative value. -/
def parseBalance (balance : String) : Except Err ℚ :=
  match parseFloat balance with
  | none => .error (.generic ("Invalid balance: " ++ balance))
  | some num =>
    if num < 0 then .error (.generic ("Invalid balance: " ++ balance))
    else .ok num

/-- Embedding of `compareBalances` (src/stellar/utils.ts lines 115-117):
`parseBalance(a) >= parseBalance(b)`, a binary64 comparison of the two
parsed values. -/
def compareBalances (a b : String) : Except Err Bool := do
  let x ← parseBalance a
  let y ← parseBalance b
  .ok (decide (x ≥ y))

/-- Embedding of `parseBalance(x.toString())` for a number `x`: JavaScript
number-to-string rendering round-trips through `parseFloat` (the shortest
decimal rendering of a binary64 value parses back to it), so the parsed
value is `x` itself, it is never NaN, and only the negativity check remains
observable; the message carries the rendering. -/
def parseBalanceOfNum (numStr : ℚ → String) (x : ℚ) : Except Err ℚ :=
  if x < 0 then .error (.generic ("Invalid balance: " ++ numStr x))
  else .ok x

/-- Embedding of `compareBalances(balance, request.amount.toString())` as
called by `validateAccountForSwap` (src/core/swap-service.ts line 363), with
the `toString`/`parseFloat` round-trip on the amount folded away. -/
def compareBalancesToAmount (numStr : ℚ → String) (balance : String)
    (amount : ℚ) : Except Err Bool := do
  let x ← parseBalance balance
  let y ← parseBalanceOfNum numStr amount
  .ok (decide (x ≥ y))

/-! ### src/stellar/client.ts -/

/-- Embedding of `stellarClient.accountExists` (lines 220-230): a
`loadAccount` failure whose `error.response?.status` is 404 means the
account does not exist; any other failure is rethrown raw (modelled as a
plain error carrying the original message). -/
def accountExists (env : Env) (publicKey : String) : M Bool := do
  M.emit .loadAccount
  match env.loadAccount publicKey with
  | .ok _ => M.pure true
  | .error e =>
    match e with
    | .http status msg =>
      if status = 404 then M.pure false else M.throw (.generic msg)
    | .other msg => M.throw (.generic msg)

/-- Embedding of `stellarClient.getAccount` (lines 71-90): any `loadAccount`
failure (including a 404) is wrapped into a plain
`Error("Failed to load account: " + message)`. -/
def getAccount (env : Env) (publicKey : String) : M StellarAccount := do
  M.emit .loadAccount
  match env.loadAccount publicKey with
  | .ok a => M.pure a
  | .error e => M.throw (.generic ("Failed to load account: " ++ e.message))

/-- Embedding of `stellarClient.getBalances` (lines 95-103): `getAccount`
with an identity catch-and-rethrow. -/
def getBalances (env : Env) (publicKey : String) : M (List StellarBalance) :=
  M.tryCatch
    (do
      let a ← getAccount env publicKey
      M.pure a.balances)
    (fun e => M.throw e)

/-! ### src/stellar/utils.ts, network-touching helpers -/

/-- Embedding of `hasTrustline` (src/stellar/utils.ts lines 164-192): XLM is
native, so always trusted; otherwise the account's balance lines are scanned
for the token's code and issuer; any failure yields `false`. -/
def hasTrustline (env : Env) (publicKey symbol : String) : M Bool :=
  M.tryCatch
    (if strUpper symbol = "XLM" then M.pure true
     else do
      let balances ← getBalances env publicKey
      match KNOWN_TOKENS (strUpper symbol) with
      | none => M.pure false
      | some tokenInfo =>
        M.pure (balances.any (fun b =>
          b.assetCode == some tokenInfo.assetCode
            && b.assetIssuer == tokenInfo.assetIssuer)))
    (fun _ => M.pure false)

/-- Embedding of `getTokenBalanceInfo` (src/stellar/utils.ts lines 197-227):
finds the balance line of a token; any failure yields `null`. -/
def getTokenBalanceInfo (env : Env) (publicKey symbol : String) :
    M (Option StellarBalance) :=
  M.tryCatch
    (do
      let balances ← getBalances env publicKey
      if strUpper symbol = "XLM" then
        M.pure (balances.find? (fun b => b.assetType == "native"))
      else
        match KNOWN_TOKENS (strUpper symbol) with
        | none => M.pure none
        | some tokenInfo =>
          M.pure (balances.find? (fun b =>
            b.assetCode == some tokenInfo.assetCode
              && b.assetIssuer == tokenInfo.assetIssuer)))
    (fun _ => M.pure none)

/-! ### src/core/wallet-service.ts, token balances -/

/-- Embedding of `walletService.getTokenBalance` (lines 168-179): the balance
line's amount, or "0" when the line (or the token) is missing; a thrown
error would be converted by `convertStellarError` (the inner helper never
throws, but the catch is embedded faithfully). -/
def getTokenBalance (env : Env) (publicKey symbol : String) : M String :=
  M.tryCatch
    (do
      let balanceInfo ← getTokenBalanceInfo env publicKey symbol
      M.pure (match balanceInfo with
        | some b => b.balance
        | none => "0"))
    (fun e => M.throw (convertStellarError e))

/-! ### src/core/swap-service.ts -/

/-- Embedding of `soroswapClient.getQuote` (src/soroswap/client.ts lines
244-272): one `GET /quote`; any failure is converted by `convertError` into
a `SoroswapAPIError` whose message defaults to `Unknown Soroswap API error`
when the underlying error's message is empty (the `||` chain of
`convertError`, line 412). -/
def soroswapGetQuote (env : Env) (fromToken toToken amountStr : String)
    (slippage : ℚ) : M SoroswapQuote := do
  M.emit .getQuote
  match env.quoteResponse fromToken toToken amountStr slippage with
  | .ok q => M.pure q
  | .error msg =>
    M.throw (.soroswapAPI (if msg = "" then "Unknown Soroswap API error" else msg))

/-- Embedding of `validateSwapRequest` (src/core/swap-service.ts lines
280-334).  Every check runs; each failed check appends its message to
`errors`, in source order.  The numeric literal 0.1 is modelled as 1/10: on
binary64 inputs `slippage < 0.1` agrees with `slippage < 1/10`, because no
binary64 value lies strictly between 1/10 and its binary64 rounding. -/
def validateSwapRequest (cfg : SecurityConfig) (numStr : ℚ → String)
    (request : SwapRequest) : SwapValidationResult :=
  let errors : List String :=
    (if request.fromToken = "" ∨ request.toToken = "" then
      ["From token and to token are required"] else [])
    ++ (if request.fromToken = request.toToken then
      ["Cannot swap the same token"] else [])
    ++ (if request.amount ≤ 0 then
      ["Amount must be greater than 0"] else [])
    ++ (if request.slippage < 1 / 10 ∨ request.slippage > cfg.maxSlippage then
      ["Slippage must be between 0.1% and " ++ numStr cfg.maxSlippage ++ "%"]
      else [])
    ++ (if request.amount < cfg.minAmount then
      ["Amount must be at least " ++ numStr cfg.minAmount] else [])
    ++ (if request.amount > cfg.maxAmount then
      ["Amount exceeds maximum limit of " ++ numStr cfg.maxAmount] else [])
    ++ (if ¬ isSupportedToken request.fromToken then
      ["Unsupported from token: " ++ request.fromToken] else [])
    ++ (if ¬ isSupportedToken request.toToken then
      ["Unsupported to token: " ++ request.toToken] else [])
  let warnings : List String :=
    (if request.slippage > 5 then
      ["High slippage tolerance: " ++ numStr request.slippage ++ "%"] else [])
    ++ (if request.amount > cfg.maxAmount * (1 / 2) then
      ["Large transaction amount detected"] else [])
  { isValid := decide (errors = []), errors := errors, warnings := warnings }

/-- Embedding of the `try` body of `validateAccountForSwap`
(src/core/swap-service.ts lines 343-372). -/
def validateAccountForSwapBody (env : Env) (publicKey : String)
    (request : SwapRequest) : M Unit := do
  let accountExistsRes ← accountExists env publicKey
  if accountExistsRes = false then
    M.throw (.generic ("Account does not exist: " ++ publicKey))
  let fromTrustline ← hasTrustline env publicKey request.fromToken
  if fromTrustline = false ∧ request.fromToken ≠ "XLM" then
    M.throw (.generic ("Missing trustline for " ++ request.fromToken))
  let toTrustline ← hasTrustline env publicKey request.toToken
  if toTrustline = false ∧ request.toToken ≠ "XLM" then
    M.throw (.generic ("Missing trustline for " ++ request.toToken))
  let balance ← getTokenBalance env publicKey request.fromToken
  let cmp ← M.ofExcept (compareBalancesToAmount env.numStr balance request.amount)
  if cmp = false then
    M.throw (.insufficientBalance request.fromToken (env.numStr request.amount)
      balance publicKey)
  M.pure ()

/-- Embedding of `validateAccountForSwap` (src/core/swap-service.ts lines
339-377): the catch logs and rethrows. -/
def validateAccountForSwap (env : Env) (publicKey : String)
    (request : SwapRequest) : M Unit :=
  M.tryCatch (validateAccountForSwapBody env publicKey request)
    (fun e => M.throw e)

/-- Embedding of `estimateSwap` (src/core/swap-service.ts lines 43-92): runs
`validateSwapRequest` but discards its result (line 53), fetches a quote,
converts its string amounts with `parseFloat`; a `SoroswapAPIError` is
re-thrown wrapped as `Swap estimation failed: ...`, any other error is
rethrown as-is. -/
def estimateSwap (cfg : SecurityConfig) (env : Env) (request : SwapRequest) :
    M SwapEstimate :=
  M.tryCatch
    (do
      let _validation := validateSwapRequest cfg env.numStr request
      let quote ← soroswapGetQuote env request.fromToken request.toToken
        (env.numStr request.amount) request.slippage
      M.pure {
        fromToken := quote.fromToken
        toToken := quote.toToken
        fromAmount := parseFloat quote.fromAmount
        toAmount := parseFloat quote.toAmount
        minimumReceived := parseFloat quote.minimumReceived
        priceImpact := quote.priceImpact
        fee := parseFloat quote.fee
        path := quote.path })
    (fun e => match e with
      | .soroswapAPI m => M.throw (.generic ("Swap estimation failed: " ++ m))
      | e => M.throw e)

/-- Embedding of `executeDirectSwap` (src/core/swap-service.ts lines
413-468): the current implementation contacts no oracle and fabricates a
succeeding result with a mock transaction hash. -/
def executeDirectSwap (env : Env) (request : SwapRequest)
    (estimate : SwapEstimate) : M SwapResult :=
  M.tryCatch
    (M.pure {
      success := true
      transactionHash := some env.mockTxHash
      fromToken := request.fromToken
      toToken := request.toToken
      fromAmount := request.amount
      toAmount := estimate.toAmount
      actualReceived := estimate.toAmount
      fee := estimate.fee
      timestamp := env.timestampStr })
    (fun e => M.throw e)

/-- Embedding of `performSwap` (src/core/swap-service.ts lines 382-408): any
failure is rethrown as `StellarTransactionFailedError`. -/
def performSwap (env : Env) (request : SwapRequest) (estimate : SwapEstimate) :
    M SwapResult :=
  M.tryCatch (executeDirectSwap env request estimate)
    (fun e => M.throw (.txFailed ("Swap execution failed: " ++ e.message)))

/-- Embedding of `request.accountSecret || stellarConfig.defaultAccountSecret`
(src/core/swap-service.ts line 115): JavaScript `||` falls through on the
empty string. -/
def firstTruthy : Option String → Option String → Option String
  | some s, b => if s = "" then b else some s
  | none, b => b

/-- Embedding of the `try` body of `executeSwap` (src/core/swap-service.ts
lines 100-143): validation, account-secret resolution, key derivation,
account pre-checks, quote, then execution. -/
def executeSwapBody (cfg : SecurityConfig) (scfg : StellarCfg) (env : Env)
    (request : SwapRequest) : M SwapResult := do
  let validation := validateSwapRequest cfg env.numStr request
  if validation.isValid = false then
    M.throw (.generic ("Swap validation failed: "
      ++ String.intercalate ", " validation.errors))
  match firstTruthy request.accountSecret scfg.defaultAccountSecret with
  | none => M.throw (.generic "No account secret provided for swap execution")
  | some accountSecret =>
    if accountSecret = "" then
      M.throw (.generic "No account secret provided for swap execution")
    else
      match env.keypairPublic accountSecret with
      | .error msg => M.throw (.generic msg)
      | .ok publicKey => do
        validateAccountForSwap env publicKey request
        let estimate ← estimateSwap cfg env request
        performSwap env request estimate

/-- The failure `SwapResult` built by the catch block of `executeSwap`
(src/core/swap-service.ts lines 153-162). -/
def swapFailureResult (env : Env) (request : SwapRequest) (e : Err) :
    SwapResult :=
  { success := false
    fromToken := request.fromToken
    toToken := request.toToken
    fromAmount := request.amount
    toAmount := some 0
    fee := some 0
    timestamp := env.timestampStr
    error := some e.message }

/-- Embedding of `executeSwap` (src/core/swap-service.ts lines 97-164): the
whole orchestration runs under one top-level catch that converts any thrown
error into a failure `SwapResult`. -/
def executeSwap (cfg : SecurityConfig) (scfg : StellarCfg) (env : Env)
    (request : SwapRequest) : M SwapResult :=
  M.tryCatch (executeSwapBody cfg scfg env request)
    (fun e => M.pure (swapFailureResult env request e))

/-! ### JavaScript `Map` as an insertion-ordered association list

A JavaScript `Map` iterates in insertion order; `set` on an existing key
updates the value in place (keeping the key's position), `set` on a fresh
key appends, `delete` removes the key's single entry, and
`keys().next().value` is the earliest-inserted key.  The states built by the
embedded code always have pairwise-distinct keys. -/

/-- `map.get(k)` (`undefined` is `none`). -/
def mapFind {β : Type} (k : String) : List (String × β) → Option β
  | [] => none
  | (k₂, v) :: rest => if k₂ = k then some v else mapFind k rest

/-- `map.set(k, v)`: update in place, or append. -/
def mapSet {β : Type} (k : String) (v : β) :
    List (String × β) → List (String × β)
  | [] => [(k, v)]
  | (k₂, v₂) :: rest =>
    if k₂ = k then (k, v) :: rest else (k₂, v₂) :: mapSet k v rest

/-- `map.delete(k)`. -/
def mapDelete {β : Type} (k : String) :
    List (String × β) → List (String × β)
  | [] => []
  | (k₂, v₂) :: rest => if k₂ = k then rest else (k₂, v₂) :: mapDelete k rest

/-! ### src/core/price-service.ts, price cache -/

/-- A `TokenPrice` (src/types). -/
structure TokenPrice where
  symbol : String
  price : ℚ
  priceUsd : ℚ
  priceChange24h : ℚ
  priceChangePercentage24h : ℚ
  volume24h : ℚ
  marketCap : Option ℚ := none
  lastUpdated : String
deriving DecidableEq, Repr

/-- A `PriceCacheEntry` (src/core/price-service.ts lines 385-389);
`timestamp` and `expiresAt` are `Date.now()` milliseconds. -/
structure PriceCacheEntry where
  price : TokenPrice
  timestamp : Nat
  expiresAt : Nat
deriving DecidableEq, Repr

/-- The `priceCache` map of `PriceService`. -/
abbrev CacheState := List (String × PriceCacheEntry)

/-- `PriceService.CACHE_TTL` (src/core/price-service.ts line 396): one
minute, in milliseconds. -/
def CACHE_TTL : Nat := 60 * 1000

/-- `PriceService.MAX_CACHE_SIZE` (src/core/price-service.ts line 397). -/
def MAX_CACHE_SIZE : Nat := 1000

/-- Embedding of `PriceService.getCachedPrice` (lines 658-672): a missing or
expired entry is a miss; an expired entry is deleted by the read that
discovers it. -/
def getCachedPrice (now : Nat) (key : String) (cache : CacheState) :
    Option TokenPrice × CacheState :=
  match mapFind key cache with
  | none => (none, cache)
  | some entry =>
    if now > entry.expiresAt then (none, mapDelete key cache)
    else (some entry.price, cache)

/-- Embedding of `PriceService.setCachedPrice` (lines 677-695): at capacity,
the earliest-inserted key is deleted before the insert — but only when that
key is truthy (`if (firstKey)`), so an empty-string earliest key defeats the
eviction. -/
def setCachedPrice (now : Nat) (key : String) (price : TokenPrice)
    (cache : CacheState) : CacheState :=
  let cache₁ :=
    if MAX_CACHE_SIZE ≤ cache.length then
      match cache.head? with
      | some (firstKey, _) =>
        if firstKey = "" then cache else mapDelete firstKey cache
      | none => cache
    else cache
  mapSet key { price := price, timestamp := now, expiresAt := now + CACHE_TTL }
    cache₁

/-! ### src/core/wallet-service.ts, sessions -/

/-- A `WalletInfo` (src/core/wallet-service.ts lines 30-37).  The source
stores `availableXLM` as the decimal string `available.toString()`; the
model keeps the numeric value. -/
structure WalletInfo where
  publicKey : String
  accountId : String
  isConnected : Bool
  balances : List StellarBalance
  availableXLM : ℚ
  trustlineCount : Nat
deriving DecidableEq, Repr

/-- The `connectedWallets` session map of `WalletService`. -/
abbrev Sessions := List (String × WalletInfo)

/-- Embedding of `calculateMinimumBalance` (src/stellar/utils.ts lines
250-255): base reserve plus one trustline reserve per trustline, in XLM. -/
def calculateMinimumBalance (trustlines : Nat) : ℚ :=
  1 / 2 + (trustlines : ℚ) * (1 / 2)

/-- Embedding of `calculateAvailableXLM` (src/stellar/utils.ts lines
260-269): total balance minus the minimum reserve, floored at zero;
`parseBalance` can throw on a malformed balance string. -/
def calculateAvailableXLM (balance : String) (trustlines : Nat) :
    Except Err ℚ := do
  let totalBalance ← parseBalance balance
  .ok (max 0 (totalBalance - calculateMinimumBalance trustlines))

/-- Embedding of `WalletService.calculateAvailableXLMBalance` (lines
328-334). -/
def calculateAvailableXLMBalance (balances : List StellarBalance) :
    Except Err ℚ :=
  match balances.find? (fun b => b.assetType == "native") with
  | none => .ok 0
  | some xlmBalance =>
    calculateAvailableXLM xlmBalance.balance
      (balances.filter (fun b => b.assetType != "native")).length

/-- Embedding of `WalletService.refreshWallet` (src/core/wallet-service.ts
lines 119-142): re-fetches the account (without consulting the session map),
builds a fresh `WalletInfo`, stores it under the public key, and returns it;
any thrown error is converted by `convertStellarError` and rethrown, leaving
the session map unchanged. -/
def refreshWallet (env : Env) (sessions : Sessions) (publicKey : String) :
    Except Err WalletInfo × Sessions :=
  match (getAccount env publicKey).res with
  | .error e => (.error (convertStellarError e), sessions)
  | .ok account =>
    match calculateAvailableXLMBalance account.balances with
    | .error e => (.error (convertStellarError e), sessions)
    | .ok available =>
      let walletInfo : WalletInfo :=
        { publicKey := account.publicKey
          accountId := account.accountId
          isConnected := true
          balances := account.balances
          availableXLM := available
          trustlineCount :=
            (account.balances.filter (fun b => b.assetType != "native")).length }
      (.ok walletInfo, mapSet publicKey walletInfo sessions)

/-! ### src/mcp/server.ts, tool dispatch -/

/-- The response envelope of the CallToolRequestSchema handler: one text
content item, with `isError` set on the error branch (and absent, i.e.
false, on success). -/
structure CallToolResponse where
  contentText : String
  isError : Bool
deriving DecidableEq, Repr

/-- The five tool handler methods of `SoroswapMCPServer`
(`handleSwapTokens` .. `handleEstimateSwap`, src/mcp/server.ts lines
362-536), abstracted over their argument and result types: the dispatcher's
behavior depends only on each handler's `Except` outcome. -/
structure ToolHandlers (A R : Type) where
  handleSwapTokens : A → Except Err R
  handleGetPrice : A → Except Err R
  handleGetBalance : A → Except Err R
  handleGetHistory : A → Except Err R
  handleEstimateSwap : A → Except Err R

/-- Embedding of `SoroswapMCPServer.callTool` (src/mcp/server.ts lines
310-332): dispatch on the tool name; an unknown name throws. -/
def callTool {A R : Type} (h : ToolHandlers A R) (name : String) (args : A) :
    Except Err R :=
  if name = "swap_tokens" then h.handleSwapTokens args
  else if name = "get_price" then h.handleGetPrice args
  else if name = "get_balance" then h.handleGetBalance args
  else if name = "get_history" then h.handleGetHistory args
  else if name = "estimate_swap" then h.handleEstimateSwap args
  else .error (.generic ("Unknown tool: " ++ name))

/-- Embedding of the CallToolRequestSchema handler (src/mcp/server.ts lines
70-102): the result is serialized into a text content item; any thrown
error becomes an error-flagged response.  `stringify` is
`JSON.stringify(·, null, 2)`. -/
def callToolRequestHandler {A R : Type} (stringify : R → String)
    (h : ToolHandlers A R) (name : String) (args : A) : CallToolResponse :=
  match callTool h name args with
  | .ok result => { contentText := stringify result, isError := false }
  | .error e => { contentText := "Error: " ++ e.message, isError := true }

/-! ### src/mcp/server.ts, resource reads -/

/-- The JSON payload a resource handler method returns: one of the four
success shapes, the no-default-account message shape of `getAccountInfo`,
or the `{ error, timestamp }` shape each method's catch block returns. -/
inductive ResourcePayload (A B C D : Type) where
  | accountInfo (a : A)
  | noDefaultAccount (message : String)
  | marketPrices (b : B)
  | liquidityPools (c : C)
  | networkStatus (d : D)
  | errorPayload (msg timestamp : String)
deriving DecidableEq, Repr

/-- The service-call outcomes feeding the four resource handler methods,
abstracted over the assembled data: `accountInfoData` is
`walletService.getDefaultAccountInfo()` (with `none` for a missing default
account), `marketData` the sequential `getMarketSummary`/`getAllPrices`
pair, `poolsData` `soroswapClient.getPools()`, and `networkData` the
`Promise.all` of the five status calls of `getNetworkStatus` (whose failure
is the error of a failing component). -/
structure ResourceServices (A B C D : Type) where
  accountInfoData : Except Err (Option A)
  marketData : Except Err B
  poolsData : Except Err C
  networkData : Except Err D
  timestampStr : String

/-- Embedding of `getAccountInfo` (src/mcp/server.ts lines 542-573): a
failure is caught and returned as an error-shaped payload. -/
def getAccountInfo {A B C D : Type} (svc : ResourceServices A B C D) :
    ResourcePayload A B C D :=
  match svc.accountInfoData with
  | .ok (some a) => .accountInfo a
  | .ok none => .noDefaultAccount "No default account configured"
  | .error e => .errorPayload e.message svc.timestampStr

/-- Embedding of `getMarketPrices` (src/mcp/server.ts lines 575-606). -/
def getMarketPrices {A B C D : Type} (svc : ResourceServices A B C D) :
    ResourcePayload A B C D :=
  match svc.marketData with
  | .ok b => .marketPrices b
  | .error e => .errorPayload e.message svc.timestampStr

/-- Embedding of `getLiquidityPools` (src/mcp/server.ts lines 608-642). -/
def getLiquidityPools {A B C D : Type} (svc : ResourceServices A B C D) :
    ResourcePayload A B C D :=
  match svc.poolsData with
  | .ok c => .liquidityPools c
  | .error e => .errorPayload e.message svc.timestampStr

/-- Embedding of `getNetworkStatus` (src/mcp/server.ts lines 644-704). -/
def getNetworkStatus {A B C D : Type} (svc : ResourceServices A B C D) :
    ResourcePayload A B C D :=
  match svc.networkData with
  | .ok d => .networkStatus d
  | .error e => .errorPayload e.message svc.timestampStr

/-- Embedding of `SoroswapMCPServer.readResource` (src/mcp/server.ts lines
337-356): dispatch on the URI; an unknown URI throws. -/
def readResource {A B C D : Type} (svc : ResourceServices A B C D)
    (uri : String) : Except Err (ResourcePayload A B C D) :=
  if uri = "soroswap://account/info" then .ok (getAccountInfo svc)
  else if uri = "soroswap://market/prices" then .ok (getMarketPrices svc)
  else if uri = "soroswap://pools/liquidity" then .ok (getLiquidityPools svc)
  else if uri = "soroswap://network/status" then .ok (getNetworkStatus svc)
  else .error (.generic ("Unknown resource: " ++ uri))

/-- One `contents` item of a resource read response. -/
structure ResourceContents where
  uri : String
  mimeType : String
  text : String
deriving DecidableEq, Repr

/-- Embedding of the ReadResourceRequestSchema handler (src/mcp/server.ts
lines 129-153): a successful read is wrapped into a `contents` envelope; a
thrown error is logged and rethrown. -/
def readResourceRequestHandler {A B C D : Type}
    (stringify : ResourcePayload A B C D → String)
    (svc : ResourceServices A B C D) (uri : String) :
    Except Err ResourceContents :=
  match readResource svc uri with
  | .ok content =>
    .ok { uri := uri, mimeType := "application/json", text := stringify content }
  | .error e => .error e

/-! ## Association-list map lemmas -/

theorem mapFind_mapSet_self {β : Type} (k : String) (v : β)
    (m : List (String × β)) : mapFind k (mapSet k v m) = some v := by
  induction m with
  | nil => simp [mapSet, mapFind]
  | cons hd tl ih =>
    obtain ⟨k₂, v₂⟩ := hd
    by_cases h : k₂ = k
    · simp [mapSet, mapFind, h]
    · simp [mapSet, mapFind, h, ih]

theorem mapSet_of_not_mem {β : Type} (k : String) (v : β)
    (m : List (String × β)) (h : k ∉ m.map Prod.fst) :
    mapSet k v m = m ++ [(k, v)] := by
  induction m with
  | nil => simp [mapSet]
  | cons hd tl ih =>
    obtain ⟨k₂, v₂⟩ := hd
    simp only [List.map_cons, List.mem_cons] at h
    push_neg at h
    simp [mapSet, Ne.symm h.1, ih h.2]

theorem mapDelete_head {β : Type} (k : String) (v : β)
    (m : List (String × β)) : mapDelete k ((k, v) :: m) = m := by
  simp [mapDelete]

theorem mapDelete_of_not_mem {β : Type} (k : String)
    (m : List (String × β)) (h : k ∉ m.map Prod.fst) :
    mapDelete k m = m := by
  induction m with
  | nil => simp [mapDelete]
  | cons hd tl ih =>
    obtain ⟨k₂, v₂⟩ := hd
    simp only [List.map_cons, List.mem_cons] at h
    push_neg at h
    simp [mapDelete, Ne.symm h.1, ih h.2]

theorem mapSet_length_le {β : Type} (k : String) (v : β)
    (m : List (String × β)) :
    (mapSet k v m).length ≤ m.length + 1 := by
  induction m with
  | nil => simp [mapSet]
  | cons hd tl ih =>
    obtain ⟨k₂, v₂⟩ := hd
    by_cases h : k₂ = k
    · simp [mapSet, h]
    · simp only [mapSet, if_neg h, List.length_cons]
      omega

theorem mapDelete_length_of_mem {β : Type} (k : String)
    (m : List (String × β)) (h : k ∈ m.map Prod.fst) :
    (mapDelete k m).length + 1 = m.length := by
  induction m with
  | nil => simp at h
  | cons hd tl ih =>
    obtain ⟨k₂, v₂⟩ := hd
    by_cases hk : k₂ = k
    · simp [mapDelete, hk]
    · simp only [List.map_cons, List.mem_cons] at h
      rcases h with h | h

      · exact absurd h.symm hk
      · simp [mapDelete, hk, ih h]

/-! ## Claim C4: price-cache round-trip and expiry -/

/-- C4.  Price-cache round-trip and expiry, for `PriceService.getCachedPrice`
and `PriceService.setCachedPrice`: immediately after `setCachedPrice(k, p)` a
`getCachedPrice(k)` returns `p`; the fresh entry satisfies
`expiresAt = insertedAt + TTL` with the fixed 60-second `CACHE_TTL`; a lookup
misses exactly when no entry exists or `now > expiresAt`; and an expired
entry is deleted from the cache by the read that discovers it. -/
theorem priceCache_roundtrip_and_expiry (now now₂ : Nat) (key : String)
    (p : TokenPrice) (cache : CacheState) :
    (getCachedPrice now key (setCachedPrice now key p cache)).1 = some p
    ∧ CACHE_TTL = 60 * 1000
    ∧ (∀ e, mapFind key (setCachedPrice now key p cache) = some e →
        e.expiresAt = e.timestamp + CACHE_TTL ∧ e.timestamp = now)
    ∧ ((getCachedPrice now₂ key cache).1 = none ↔
        mapFind key cache = none ∨
          ∃ e, mapFind key cache = some e ∧ now₂ > e.expiresAt)
    ∧ (∀ e, mapFind key cache = some e → now₂ > e.expiresAt →
        (getCachedPrice now₂ key cache).2 = mapDelete key cache) := by
  have hfind : mapFind key (setCachedPrice now key p cache) =
      some { price := p, timestamp := now, expiresAt := now + CACHE_TTL } := by
    rw [setCachedPrice]
    exact mapFind_mapSet_self ..
  refine ⟨?_, rfl, ?_, ?_, ?_⟩
  · rw [getCachedPrice, hfind]
    simp
  · intro e he
    rw [hfind] at he
    cases he
    exact ⟨rfl, rfl⟩
  · rw [getCachedPrice]
    match hf : mapFind key cache with
    | none => simp
    | some entry =>
      by_cases hexp : now₂ > entry.expiresAt
      · simp only [if_pos hexp]
        simp only [true_iff, reduceCtorEq, false_or]
        exact ⟨entry, rfl, hexp⟩
      · simp only [if_neg hexp]
        constructor
        · intro h; cases h
        · rintro (h | ⟨e, he, hgt⟩)
          · cases h
          · cases he; exact absurd hgt hexp
  · intro e he hgt
    rw [getCachedPrice, he]
    simp only [if_pos hgt]

/-- A concrete `TokenPrice` used by witnesses. -/
def tp₀ : TokenPrice :=
  { symbol := "XLM/USDC", price := 2, priceUsd := 1, priceChange24h := 0,
    priceChangePercentage24h := 0, volume24h := 0, lastUpdated := "t0" }

/-- Witness for C4 at concrete inputs: a round-trip at time 5 on the empty
cache; the freshly inserted entry's expiry stamp; and the eager deletion of
an expired entry read at time 999999. -/
theorem priceCache_roundtrip_and_expiry_witness :
    (getCachedPrice 5 "k" (setCachedPrice 5 "k" tp₀ [])).1 = some tp₀
    ∧ (mapFind "k" (setCachedPrice 5 "k" tp₀ []) =
        some { price := tp₀, timestamp := 5, expiresAt := 5 + CACHE_TTL } →
        ({ price := tp₀, timestamp := 5, expiresAt := 5 + CACHE_TTL }
          : PriceCacheEntry).expiresAt = 5 + CACHE_TTL)
    ∧ (getCachedPrice 999999 "k" [("k", ⟨tp₀, 0, 60000⟩)]).2 =
        mapDelete "k" [("k", ⟨tp₀, 0, 60000⟩)] := by
  obtain ⟨h1, _, h3, _, h5⟩ :=
    priceCache_roundtrip_and_expiry 5 999999 "k" tp₀ [("k", ⟨tp₀, 0, 60000⟩)]
  refine ⟨?_, ?_, ?_⟩
  · exact (priceCache_roundtrip_and_expiry 5 0 "k" tp₀ []).1
  · intro h
    exact ((priceCache_roundtrip_and_expiry 5 0 "k" tp₀ []).2.2.1 _ h).1
  · exact h5 ⟨tp₀, 0, 60000⟩ rfl (by decide)

/-! ## Claim C5: price-cache capacity and insertion-order eviction -/

theorem mem_keys_mapSet {β : Type} (a k : String) (v : β)
    (m : List (String × β)) :
    a ∈ (mapSet k v m).map Prod.fst ↔ a ∈ m.map Prod.fst ∨ a = k := by
  induction m with
  | nil => simp [mapSet, eq_comm]
  | cons hd tl ih =>
    obtain ⟨k₂, v₂⟩ := hd
    by_cases h : k₂ = k
    · subst h
      simp [mapSet, eq_comm]
      tauto
    · simp only [mapSet, if_neg h, List.map_cons, List.mem_cons, ih]
      tauto

/-- Auxiliary for C5: folding inserts of fresh, pairwise-distinct keys while
room remains appends them in order. -/
theorem foldl_setCachedPrice_fresh (now : Nat) (p : TokenPrice) :
    ∀ (ks : List String) (cache : CacheState), ks.Nodup →
      (∀ k ∈ ks, k ∉ cache.map Prod.fst) →
      cache.length + ks.length ≤ MAX_CACHE_SIZE →
      (ks.foldl (fun st k => setCachedPrice now k p st) cache).map Prod.fst
        = cache.map Prod.fst ++ ks := by
  intro ks
  induction ks with
  | nil => intro cache _ _ _; simp
  | cons k ks ih =>
    intro cache hnodup hfresh hroom
    have hlt : ¬ MAX_CACHE_SIZE ≤ cache.length := by
      simp only [List.length_cons] at hroom
      omega
    have hstep : setCachedPrice now k p cache =
        cache ++ [(k, (⟨p, now, now + CACHE_TTL⟩ : PriceCacheEntry))] := by
      simp only [setCachedPrice, if_neg hlt]
      exact mapSet_of_not_mem _ _ _ (hfresh k (by simp))
    simp only [List.foldl_cons, hstep]
    rw [ih (cache ++ [(k, _)])]
    · simp
    · exact hnodup.of_cons
    · intro k₂ hk₂
      simp only [List.map_append, List.mem_append, List.map_cons,
        List.map_nil, List.mem_singleton]
      rintro (h | h)
      · exact hfresh k₂ (by simp [hk₂]) h
      · rcases List.nodup_cons.mp hnodup with ⟨hknot, _⟩
        exact hknot (h ▸ hk₂)
    · simp only [List.length_append, List.length_singleton, List.length_nil,
        List.length_cons] at hroom ⊢
      omega

/-- C5 counterexample.  The claim fails as stated: with the cache at
capacity and the empty string as its earliest-inserted key, the
`if (firstKey)` truthiness guard of `setCachedPrice` skips the eviction
(the empty string is falsy), no entry is evicted, and the insert leaves
`MAX_CACHE_SIZE + 1` entries — more than `MAX_CACHE_SIZE`. -/
def akey (i : Nat) : String := String.mk (List.replicate (i + 1) 'a')

theorem akey_injective : Function.Injective akey := by
  intro i j h
  have hlen := congrArg String.length h
  simp only [akey, String.length, List.length_replicate] at hlen
  omega

theorem akey_ne_empty (i : Nat) : akey i ≠ "" := by
  intro h
  have hlen := congrArg String.length h
  simp [akey, String.length] at hlen

theorem akey_ne_b (i : Nat) : akey i ≠ "b" := by
  intro h
  have hdata := congrArg String.data h
  simp only [akey] at hdata
  rw [List.replicate_succ] at hdata
  have hhead := congrArg List.head? hdata
  simp only [List.head?_cons] at hhead
  exact absurd hhead (by decide)

/-- The capacity-full cache whose earliest key is the empty string. -/
def cexCache : CacheState :=
  ("", ⟨tp₀, 0, 60000⟩) ::
    (List.range (MAX_CACHE_SIZE - 1)).map (fun i => (akey i, ⟨tp₀, 0, 60000⟩))

theorem cexCache_length : cexCache.length = MAX_CACHE_SIZE := by
  simp [cexCache, MAX_CACHE_SIZE]

/-- C5 counterexample: inserting a fresh key with the cache at capacity does
not evict anything when the earliest-inserted key is the empty string, and
the cache grows to `MAX_CACHE_SIZE + 1` entries. -/
theorem setCachedPrice_empty_key_defeats_eviction_cex :
    cexCache.length = MAX_CACHE_SIZE
    ∧ (setCachedPrice 0 "b" tp₀ cexCache).length = MAX_CACHE_SIZE + 1
    ∧ (∀ k ∈ cexCache.map Prod.fst,
        k ∈ (setCachedPrice 0 "b" tp₀ cexCache).map Prod.fst) := by
  have hb : "b" ∉ cexCache.map Prod.fst := by
    simp only [cexCache, List.map_cons, List.map_map, List.mem_cons]
    rintro (h | h)
    · exact absurd h.symm (by decide)
    · simp only [List.mem_map] at h
      obtain ⟨i, _, hi⟩ := h
      exact akey_ne_b i hi
  have hstep : setCachedPrice 0 "b" tp₀ cexCache =
      cexCache ++ [("b", (⟨tp₀, 0, 0 + CACHE_TTL⟩ : PriceCacheEntry))] := by
    have hcap : MAX_CACHE_SIZE ≤ cexCache.length := le_of_eq cexCache_length.symm
    unfold cexCache at hcap hb ⊢
    simp only [setCachedPrice, if_pos hcap, List.head?_cons, if_pos rfl]
    exact mapSet_of_not_mem _ _ _ hb
  refine ⟨cexCache_length, ?_, ?_⟩
  · rw [hstep]
    simp [cexCache_length]
  · intro k hk
    rw [hstep]
    simp only [List.map_append, List.mem_append]
    exact Or.inl hk

/-- C5 amended.  The capacity bound and insertion-order eviction hold
provided the cache's keys are non-empty strings (which every key the price
service builds is: they have the shape `single-S` or `A-B`); the empty
string defeats the `if (firstKey)` eviction guard.  Conjuncts: (1) an insert
keeps the cache at or below `MAX_CACHE_SIZE` entries; (2) at capacity the
earliest-inserted key is evicted by the insert; (3) a non-expired read
leaves the cache unchanged (reads never refresh insertion position); (4)
from an empty cache, inserting `MAX_CACHE_SIZE + 1` distinct keys leaves
exactly the last `MAX_CACHE_SIZE` of them, the first-inserted key evicted. -/
theorem setCachedPrice_capacity_eviction (now : Nat) (p : TokenPrice) :
    (∀ key cache, "" ∉ cache.map Prod.fst →
      cache.length ≤ MAX_CACHE_SIZE →
      (setCachedPrice now key p cache).length ≤ MAX_CACHE_SIZE)
    ∧ (∀ key k₀ e₀ rest, ((k₀, e₀) :: rest : CacheState).length = MAX_CACHE_SIZE →
        k₀ ≠ "" → k₀ ∉ rest.map Prod.fst → k₀ ≠ key →
        k₀ ∉ (setCachedPrice now key p ((k₀, e₀) :: rest)).map Prod.fst)
    ∧ (∀ now₂ key cache e, mapFind key cache = some e → ¬ now₂ > e.expiresAt →
        (getCachedPrice now₂ key cache).2 = cache)
    ∧ (∀ ks : List String, ks.Nodup → "" ∉ ks →
        ks.length = MAX_CACHE_SIZE + 1 →
        (ks.foldl (fun st k => setCachedPrice now k p st) []).map Prod.fst
          = ks.tail) := by
  refine ⟨?_, ?_, ?_, ?_⟩
  · intro key cache hempty hle
    by_cases hcap : MAX_CACHE_SIZE ≤ cache.length
    · match cache, hle, hempty, hcap with
      | [], hle, hempty, hcap => simp [MAX_CACHE_SIZE] at hcap
      | (k₀, e₀) :: rest, hle, hempty, hcap =>
        have hk₀ : k₀ ≠ "" := by
          intro h
          exact hempty (by simp [h])
        simp only [setCachedPrice, if_pos hcap, List.head?_cons, if_neg hk₀,
          mapDelete_head]
        have hms := mapSet_length_le key
          ({ price := p, timestamp := now, expiresAt := now + CACHE_TTL }
            : PriceCacheEntry) rest
        simp only [List.length_cons] at hle
        omega
    · simp only [setCachedPrice, if_neg hcap]
      have hms := mapSet_length_le key
        ({ price := p, timestamp := now, expiresAt := now + CACHE_TTL }
          : PriceCacheEntry) cache
      omega
  · intro key k₀ e₀ rest hlen hne hnotin hkey
    have hcap : MAX_CACHE_SIZE ≤ ((k₀, e₀) :: rest).length := le_of_eq hlen.symm
    simp only [setCachedPrice, if_pos hcap, List.head?_cons, if_neg hne,
      mapDelete_head]
    intro hmem
    rcases (mem_keys_mapSet k₀ key _ rest).mp hmem with h | h
    · exact hnotin h
    · exact hkey h
  · intro now₂ key cache e hfind hnot
    rw [getCachedPrice, hfind]
    simp only [if_neg hnot]
  · intro ks hnodup hempty hlen
    match ks, hnodup, hempty, hlen with
    | [], _, _, hlen => simp [MAX_CACHE_SIZE] at hlen
    | kh :: kt, hnodup, hempty, hlen =>
      have hktne : kt ≠ [] := by
        intro h
        rw [h] at hlen
        simp [MAX_CACHE_SIZE] at hlen
      have hdecomp : kt.dropLast ++ [kt.getLast hktne] = kt :=
        List.dropLast_append_getLast hktne
      have hlen2 : kt.dropLast.length = kt.length - 1 := List.length_dropLast kt
      have hM : MAX_CACHE_SIZE = 1000 := rfl
      simp only [List.length_cons] at hlen
      -- fill the first MAX_CACHE_SIZE keys
      have hfill := foldl_setCachedPrice_fresh now p (kh :: kt.dropLast) []
        (by
          have hsub : (kh :: kt.dropLast).Sublist (kh :: kt) :=
            List.cons_sublist_cons.mpr (List.dropLast_sublist kt)
          exact hnodup.sublist hsub)
        (by simp)
        (by
          simp only [List.length_nil, List.length_cons, Nat.zero_add]
          omega)
      have hksdecomp : (kh :: kt.dropLast) ++ [kt.getLast hktne] = kh :: kt := by
        rw [List.cons_append, hdecomp]
      have hfold : (kh :: kt).foldl (fun st k => setCachedPrice now k p st) []
          = setCachedPrice now (kt.getLast hktne) p
            ((kh :: kt.dropLast).foldl (fun st k => setCachedPrice now k p st) []) := by
        rw [← hksdecomp, List.foldl_append]
        simp
      rw [hfold]
      have hSkeys :
          ((kh :: kt.dropLast).foldl (fun st k => setCachedPrice now k p st)
            []).map Prod.fst = kh :: kt.dropLast := by
        rw [hfill]; simp
      have hSlen :
          ((kh :: kt.dropLast).foldl (fun st k => setCachedPrice now k p st)
            []).length = MAX_CACHE_SIZE := by
        have hc := congrArg List.length hSkeys
        simp only [List.length_map, List.length_cons] at hc
        omega
      match hS : (kh :: kt.dropLast).foldl (fun st k => setCachedPrice now k p st) [],
          hSkeys, hSlen with
      | [], hSkeys, hSlen => simp [MAX_CACHE_SIZE] at hSlen
      | (k₀, e₀) :: S₂, hSkeys, hSlen =>
        simp only [List.map_cons, List.cons.injEq] at hSkeys
        obtain ⟨hk₀, hS₂keys⟩ := hSkeys
        have hkhne : k₀ ≠ "" := by
          intro h
          exact hempty (by simp [← hk₀, h])
        have hcap : MAX_CACHE_SIZE ≤ ((k₀, e₀) :: S₂).length :=
          le_of_eq hSlen.symm
        simp only [setCachedPrice, if_pos hcap, List.head?_cons, if_neg hkhne,
          mapDelete_head]
        have hlast_fresh : kt.getLast hktne ∉ S₂.map Prod.fst := by
          rw [hS₂keys]
          intro hmem
          have hnodupkt : kt.Nodup := hnodup.of_cons
          rw [← hdecomp] at hnodupkt
          rcases List.nodup_append.mp hnodupkt with ⟨_, _, hdisj⟩
          exact hdisj hmem (by simp)
        rw [mapSet_of_not_mem _ _ _ hlast_fresh]
        simp only [List.map_append, hS₂keys, List.map_cons, List.map_nil,
          List.tail_cons]
        exact hdecomp

/-- Keys for the C5 witness. -/
def akeys (n : Nat) : List String := (List.range n).map akey

theorem akeys_nodup (n : Nat) : (akeys n).Nodup :=
  (List.nodup_range n).map akey_injective

theorem empty_not_mem_akeys (n : Nat) : "" ∉ akeys n := by
  simp only [akeys, List.mem_map]
  rintro ⟨i, _, hi⟩
  exact akey_ne_empty i hi

/-- Witness for C5's amended theorem, discharging its hypotheses at concrete
inputs: an insert into the empty cache stays within capacity; the earliest
key `akey 0` of a concrete capacity-full cache is evicted; a live read at
time 3 leaves a concrete cache untouched; and `MAX_CACHE_SIZE + 1` distinct
inserts from empty leave exactly the tail of the key list. -/
theorem setCachedPrice_capacity_eviction_witness :
    (setCachedPrice 0 "b" tp₀ []).length ≤ MAX_CACHE_SIZE
    ∧ akey 0 ∉ (setCachedPrice 0 "b" tp₀
        ((akey 0, ⟨tp₀, 0, 60000⟩) ::
          (List.range (MAX_CACHE_SIZE - 1)).map
            (fun i => (akey (i + 1), ⟨tp₀, 0, 60000⟩)))).map Prod.fst
    ∧ (getCachedPrice 3 "k" [("k", ⟨tp₀, 0, 60000⟩)]).2 =
        [("k", ⟨tp₀, 0, 60000⟩)]
    ∧ ((akeys (MAX_CACHE_SIZE + 1)).foldl
        (fun st k => setCachedPrice 0 k tp₀ st) []).map Prod.fst
        = (akeys (MAX_CACHE_SIZE + 1)).tail := by
  obtain ⟨h1, h2, h3, h4⟩ := setCachedPrice_capacity_eviction 0 tp₀
  refine ⟨?_, ?_, ?_, ?_⟩
  · exact h1 "b" [] (by simp) (by simp [MAX_CACHE_SIZE])
  · refine h2 "b" (akey 0) ⟨tp₀, 0, 60000⟩ _ ?_ (akey_ne_empty 0) ?_ (akey_ne_b 0)
    · simp [MAX_CACHE_SIZE]
    · simp only [List.map_map, List.mem_map]
      rintro ⟨i, _, hi⟩
      exact absurd (akey_injective hi) (by omega)
  · exact h3 3 "k" _ ⟨tp₀, 0, 60000⟩ rfl (by decide)
  · exact h4 (akeys (MAX_CACHE_SIZE + 1)) (akeys_nodup _)
      (empty_not_mem_akeys _) (by simp [akeys, MAX_CACHE_SIZE])

/-! ## Claim C6: the tool dispatcher never lets an exception escape -/

/-- C6.  For every tool-call request, the CallToolRequestSchema handler is a
total function into response envelopes — no exception escapes the dispatcher
boundary: a tool name outside the fixed five-name set yields an
`isError`-flagged response carrying `Error: Unknown tool: <name>`; any error
thrown by a tool handler is caught and returned as an `isError`-flagged
response carrying its message; a successful handler result is returned
un-flagged. -/
theorem callTool_dispatcher_never_throws {A R : Type} (stringify : R → String)
    (h : ToolHandlers A R) (name : String) (args : A) :
    (name ∉ (["swap_tokens", "get_price", "get_balance", "get_history",
        "estimate_swap"] : List String) →
      callToolRequestHandler stringify h name args =
        { contentText := "Error: Unknown tool: " ++ name, isError := true })
    ∧ (∀ e, callTool h name args = .error e →
        callToolRequestHandler stringify h name args =
          { contentText := "Error: " ++ e.message, isError := true })
    ∧ (∀ r, callTool h name args = .ok r →
        callToolRequestHandler stringify h name args =
          { contentText := stringify r, isError := false }) := by
  refine ⟨?_, ?_, ?_⟩
  · intro hname
    simp only [List.mem_cons, List.mem_singleton, not_or] at hname
    obtain ⟨h1, h2, h3, h4, h5, _⟩ := hname
    rw [callToolRequestHandler, callTool]
    simp only [if_neg h1, if_neg h2, if_neg h3, if_neg h4, if_neg h5]
    rfl
  · intro e he
    rw [callToolRequestHandler, he]
  · intro r hr
    rw [callToolRequestHandler, hr]

/-- Trivial tool handlers for the C6 witness (argument and result types are
`Unit`; every handler succeeds). -/
def trivialHandlers : ToolHandlers Unit Unit :=
  { handleSwapTokens := fun _ => .ok ()
    handleGetPrice := fun _ => .ok ()
    handleGetBalance := fun _ => .ok ()
    handleGetHistory := fun _ => .ok ()
    handleEstimateSwap := fun _ => .ok () }

/-- Failing tool handlers for the C6 witness: every handler throws. -/
def throwingHandlers : ToolHandlers Unit Unit :=
  { handleSwapTokens := fun _ => .error (.generic "boom")
    handleGetPrice := fun _ => .error (.generic "boom")
    handleGetBalance := fun _ => .error (.generic "boom")
    handleGetHistory := fun _ => .error (.generic "boom")
    handleEstimateSwap := fun _ => .error (.generic "boom") }

/-- Witness for C6 at concrete inputs: the unknown tool name `bogus` yields
the error-flagged unknown-tool response, and a handler that throws `boom`
yields an error-flagged response carrying `Error: boom`. -/
theorem callTool_dispatcher_never_throws_witness :
    callToolRequestHandler (fun _ => "null") trivialHandlers "bogus" () =
      { contentText := "Error: Unknown tool: bogus", isError := true }
    ∧ callToolRequestHandler (fun _ => "null") throwingHandlers "swap_tokens" () =
      { contentText := "Error: boom", isError := true } := by
  constructor
  · exact (callTool_dispatcher_never_throws (fun _ => "null") trivialHandlers
      "bogus" ()).1 (by decide)
  · exact (callTool_dispatcher_never_throws (fun _ => "null") throwingHandlers
      "swap_tokens" ()).2.1 (.generic "boom") rfl

/-! ## Claim C7: resource-read failures -/

/-- C7 counterexample.  The claim fails as stated for known URIs: a read of
`soroswap://network/status` whose underlying status calls fail does not
surface as a thrown exception — `getNetworkStatus` catches the failure and
the handler returns a normal `contents` response whose JSON payload is the
error-shaped `{ error, timestamp }` object. -/
def failingNetworkServices : ResourceServices Unit Unit Unit Unit :=
  { accountInfoData := .ok none
    marketData := .ok ()
    poolsData := .ok ()
    networkData := .error (.generic "boom")
    timestampStr := "t1" }

/-- Renders a `ResourcePayload` for the C7 counterexample and witness,
standing in for `JSON.stringify`. -/
def payloadTag : ResourcePayload Unit Unit Unit Unit → String
  | .accountInfo _ => "accountInfo"
  | .noDefaultAccount m => "noDefaultAccount:" ++ m
  | .marketPrices _ => "marketPrices"
  | .liquidityPools _ => "liquidityPools"
  | .networkStatus _ => "networkStatus"
  | .errorPayload m ts => "errorPayload:" ++ m ++ ":" ++ ts

theorem readResource_known_uri_failure_not_thrown_cex :
    readResourceRequestHandler payloadTag failingNetworkServices
      "soroswap://network/status" =
      .ok { uri := "soroswap://network/status", mimeType := "application/json",
            text := "errorPayload:boom:t1" }
    ∧ ∀ e, readResourceRequestHandler payloadTag failingNetworkServices
        "soroswap://network/status" ≠ .error e := by
  constructor
  · rfl
  · intro e h
    simp [readResourceRequestHandler, readResource, getNetworkStatus,
      failingNetworkServices] at h

/-- C7 amended.  Only unknown-URI failures propagate as exceptions out of the
read-resource handler (which catches, logs and rethrows): a URI outside the
fixed four-URI set surfaces as a thrown `Unknown resource` error, while a
known URI always produces a normal `contents` response — when the underlying
service call fails, the per-resource method catches the failure and the
payload is the error-shaped `{ error, timestamp }` object instead of a
thrown exception. -/
theorem readResource_error_channel {A B C D : Type}
    (stringify : ResourcePayload A B C D → String)
    (svc : ResourceServices A B C D) (uri : String) :
    (uri ∉ (["soroswap://account/info", "soroswap://market/prices",
        "soroswap://pools/liquidity", "soroswap://network/status"]
          : List String) →
      readResourceRequestHandler stringify svc uri =
        .error (.generic ("Unknown resource: " ++ uri)))
    ∧ (uri ∈ (["soroswap://account/info", "soroswap://market/prices",
        "soroswap://pools/liquidity", "soroswap://network/status"]
          : List String) →
      ∃ payload, readResourceRequestHandler stringify svc uri =
        .ok { uri := uri, mimeType := "application/json",
              text := stringify payload })
    ∧ (∀ e, svc.networkData = .error e →
        readResourceRequestHandler stringify svc "soroswap://network/status" =
          .ok { uri := "soroswap://network/status",
                mimeType := "application/json",
                text := stringify (.errorPayload e.message svc.timestampStr) })
    ∧ (∀ e, svc.marketData = .error e →
        readResourceRequestHandler stringify svc "soroswap://market/prices" =
          .ok { uri := "soroswap://market/prices",
                mimeType := "application/json",
                text := stringify (.errorPayload e.message svc.timestampStr) })
    ∧ (∀ e, svc.poolsData = .error e →
        readResourceRequestHandler stringify svc "soroswap://pools/liquidity" =
          .ok { uri := "soroswap://pools/liquidity",
                mimeType := "application/json",
                text := stringify (.errorPayload e.message svc.timestampStr) })
    ∧ (∀ e, svc.accountInfoData = .error e →
        readResourceRequestHandler stringify svc "soroswap://account/info" =
          .ok { uri := "soroswap://account/info",
                mimeType := "application/json",
                text := stringify (.errorPayload e.message svc.timestampStr) }) := by
  refine ⟨?_, ?_, ?_, ?_, ?_, ?_⟩
  · intro hname
    simp only [List.mem_cons, List.mem_singleton, not_or] at hname
    obtain ⟨h1, h2, h3, h4, _⟩ := hname
    rw [readResourceRequestHandler, readResource]
    simp only [if_neg h1, if_neg h2, if_neg h3, if_neg h4]
  · intro hmem
    simp only [List.mem_cons, List.not_mem_nil, or_false] at hmem
    rcases hmem with rfl | rfl | rfl | rfl
    · exact ⟨getAccountInfo svc, rfl⟩
    · exact ⟨getMarketPrices svc, rfl⟩
    · exact ⟨getLiquidityPools svc, rfl⟩
    · exact ⟨getNetworkStatus svc, rfl⟩
  · intro e he
    rw [readResourceRequestHandler]
    simp only [readResource, getNetworkStatus, he]
    rfl
  · intro e he
    rw [readResourceRequestHandler]
    simp only [readResource, getMarketPrices, he]
    rfl
  · intro e he
    rw [readResourceRequestHandler]
    simp only [readResource, getLiquidityPools, he]
    rfl
  · intro e he
    rw [readResourceRequestHandler]
    simp only [readResource, getAccountInfo, he]
    rfl

/-- Witness for C7's amended theorem at concrete inputs: reading the unknown
URI `soroswap://bogus` throws, and reading the network-status URI over
failing services produces the normal-channel error-shaped payload. -/
theorem readResource_error_channel_witness :
    readResourceRequestHandler payloadTag failingNetworkServices
      "soroswap://bogus" =
      .error (.generic ("Unknown resource: " ++ "soroswap://bogus"))
    ∧ readResourceRequestHandler payloadTag failingNetworkServices
        "soroswap://network/status" =
      .ok { uri := "soroswap://network/status", mimeType := "application/json",
            text := payloadTag (.errorPayload "boom" "t1") } := by
  constructor
  · exact (readResource_error_channel payloadTag failingNetworkServices
      "soroswap://bogus").1 (by decide)
  · exact (readResource_error_channel payloadTag failingNetworkServices
      "soroswap://network/status").2.2.1 (.generic "boom") rfl

/-! ## Claim C3: validateSwapRequest runs all checks and accumulates errors -/

/-- The error list of `validateSwapRequest`, as the append of its eight
check blocks in source order. -/
theorem validateSwapRequest_errors_def (cfg : SecurityConfig)
    (numStr : ℚ → String) (request : SwapRequest) :
    (validateSwapRequest cfg numStr request).errors =
      (if request.fromToken = "" ∨ request.toToken = "" then
        ["From token and to token are required"] else [])
      ++ (if request.fromToken = request.toToken then
        ["Cannot swap the same token"] else [])
      ++ (if request.amount ≤ 0 then
        ["Amount must be greater than 0"] else [])
      ++ (if request.slippage < 1 / 10 ∨ request.slippage > cfg.maxSlippage then
        ["Slippage must be between 0.1% and " ++ numStr cfg.maxSlippage ++ "%"]
        else [])
      ++ (if request.amount < cfg.minAmount then
        ["Amount must be at least " ++ numStr cfg.minAmount] else [])
      ++ (if request.amount > cfg.maxAmount then
        ["Amount exceeds maximum limit of " ++ numStr cfg.maxAmount] else [])
      ++ (if ¬ isSupportedToken request.fromToken then
        ["Unsupported from token: " ++ request.fromToken] else [])
      ++ (if ¬ isSupportedToken request.toToken then
        ["Unsupported to token: " ++ request.toToken] else []) := rfl

/-- `isValid` is the emptiness check on the accumulated error list. -/
theorem validateSwapRequest_isValid_iff (cfg : SecurityConfig)
    (numStr : ℚ → String) (request : SwapRequest) :
    (validateSwapRequest cfg numStr request).isValid = true ↔
      (validateSwapRequest cfg numStr request).errors = [] := by
  have hv : (validateSwapRequest cfg numStr request).isValid =
      decide ((validateSwapRequest cfg numStr request).errors = []) := rfl
  rw [hv]
  exact decide_eq_true_iff

/-- Any error makes the result invalid. -/
theorem validateSwapRequest_invalid_of_mem (cfg : SecurityConfig)
    (numStr : ℚ → String) (request : SwapRequest) (s : String)
    (hs : s ∈ (validateSwapRequest cfg numStr request).errors) :
    (validateSwapRequest cfg numStr request).isValid = false := by
  cases hb : (validateSwapRequest cfg numStr request).isValid
  · rfl
  · rw [(validateSwapRequest_isValid_iff cfg numStr request).mp hb] at hs
    exact absurd hs (List.not_mem_nil _)

/-- Equal tokens always contribute their error. -/
theorem validateSwapRequest_mem_same (cfg : SecurityConfig)
    (numStr : ℚ → String) (request : SwapRequest)
    (h : request.fromToken = request.toToken) :
    "Cannot swap the same token"
      ∈ (validateSwapRequest cfg numStr request).errors := by
  rw [validateSwapRequest_errors_def]
  apply List.mem_append_left
  apply List.mem_append_left
  apply List.mem_append_left
  apply List.mem_append_left
  apply List.mem_append_left
  apply List.mem_append_left
  apply List.mem_append_right
  rw [if_pos h]
  exact List.mem_singleton_self _

/-- An amount below the minimum always contributes its error. -/
theorem validateSwapRequest_mem_min (cfg : SecurityConfig)
    (numStr : ℚ → String) (request : SwapRequest)
    (h : request.amount < cfg.minAmount) :
    ("Amount must be at least " ++ numStr cfg.minAmount)
      ∈ (validateSwapRequest cfg numStr request).errors := by
  rw [validateSwapRequest_errors_def]
  apply List.mem_append_left
  apply List.mem_append_left
  apply List.mem_append_left
  apply List.mem_append_right
  rw [if_pos h]
  exact List.mem_singleton_self _

/-- An amount above the maximum always contributes its error. -/
theorem validateSwapRequest_mem_max (cfg : SecurityConfig)
    (numStr : ℚ → String) (request : SwapRequest)
    (h : request.amount > cfg.maxAmount) :
    ("Amount exceeds maximum limit of " ++ numStr cfg.maxAmount)
      ∈ (validateSwapRequest cfg numStr request).errors := by
  rw [validateSwapRequest_errors_def]
  apply List.mem_append_left
  apply List.mem_append_left
  apply List.mem_append_right
  rw [if_pos h]
  exact List.mem_singleton_self _

/-- A slippage outside the configured band always contributes its error. -/
theorem validateSwapRequest_mem_slip (cfg : SecurityConfig)
    (numStr : ℚ → String) (request : SwapRequest)
    (h : request.slippage < 1 / 10 ∨ request.slippage > cfg.maxSlippage) :
    ("Slippage must be between 0.1% and " ++ numStr cfg.maxSlippage ++ "%")
      ∈ (validateSwapRequest cfg numStr request).errors := by
  rw [validateSwapRequest_errors_def]
  apply List.mem_append_left
  apply List.mem_append_left
  apply List.mem_append_left
  apply List.mem_append_left
  apply List.mem_append_right
  rw [if_pos h]
  exact List.mem_singleton_self _

/-- C3.  `validateSwapRequest` runs every check without short-circuiting and
accumulates all applicable errors: `isValid` holds exactly when the error
list is empty; an amount below `minAmount` or above `maxAmount` contributes
the corresponding bound-mentioning error and makes the result invalid; a
slippage outside `[0.1, maxSlippage]` contributes the slippage-bound error
and makes the result invalid; and equal tokens contribute the error
`Cannot swap the same token` — each unconditionally on the violated
condition, regardless of the other checks. -/
theorem validateSwapRequest_complete (cfg : SecurityConfig)
    (numStr : ℚ → String) (request : SwapRequest) :
    ((validateSwapRequest cfg numStr request).isValid = true ↔
      (validateSwapRequest cfg numStr request).errors = [])
    ∧ (request.fromToken = request.toToken →
        "Cannot swap the same token"
          ∈ (validateSwapRequest cfg numStr request).errors)
    ∧ (request.amount < cfg.minAmount →
        ("Amount must be at least " ++ numStr cfg.minAmount)
          ∈ (validateSwapRequest cfg numStr request).errors)
    ∧ (request.amount > cfg.maxAmount →
        ("Amount exceeds maximum limit of " ++ numStr cfg.maxAmount)
          ∈ (validateSwapRequest cfg numStr request).errors)
    ∧ ((request.amount < cfg.minAmount ∨ request.amount > cfg.maxAmount) →
        (validateSwapRequest cfg numStr request).isValid = false)
    ∧ ((request.slippage < 1 / 10 ∨ request.slippage > cfg.maxSlippage) →
        (validateSwapRequest cfg numStr request).isValid = false
        ∧ ("Slippage must be between 0.1% and " ++ numStr cfg.maxSlippage ++ "%")
            ∈ (validateSwapRequest cfg numStr request).errors) := by
  refine ⟨validateSwapRequest_isValid_iff cfg numStr request,
    validateSwapRequest_mem_same cfg numStr request,
    validateSwapRequest_mem_min cfg numStr request,
    validateSwapRequest_mem_max cfg numStr request, ?_, ?_⟩
  · rintro (h | h)
    · exact validateSwapRequest_invalid_of_mem cfg numStr request _
        (validateSwapRequest_mem_min cfg numStr request h)
    · exact validateSwapRequest_invalid_of_mem cfg numStr request _
        (validateSwapRequest_mem_max cfg numStr request h)
  · intro h
    exact ⟨validateSwapRequest_invalid_of_mem cfg numStr request _
        (validateSwapRequest_mem_slip cfg numStr request h),
      validateSwapRequest_mem_slip cfg numStr request h⟩

/-- Config for witnesses: the documented defaults
(`MAX_SLIPPAGE=5`, `MIN_AMOUNT=0.1`, `MAX_AMOUNT=10000`). -/
def cfg₀ : SecurityConfig := { maxSlippage := 5, minAmount := 1 / 10, maxAmount := 10000 }

/-- A number rendering for witnesses (the rendering is only ever embedded in
messages, so any function works). -/
def numStr₀ : ℚ → String := fun _ => "N"

/-- Witness for C3 at a concrete request violating three checks at once
(same token on both sides, amount over the maximum, slippage over the
maximum): all three errors are present and the result is invalid. -/
theorem validateSwapRequest_complete_witness :
    "Cannot swap the same token"
      ∈ (validateSwapRequest cfg₀ numStr₀
          { fromToken := "XLM", toToken := "XLM", amount := 20000,
            slippage := 50 }).errors
    ∧ ("Amount exceeds maximum limit of " ++ numStr₀ cfg₀.maxAmount)
      ∈ (validateSwapRequest cfg₀ numStr₀
          { fromToken := "XLM", toToken := "XLM", amount := 20000,
            slippage := 50 }).errors
    ∧ (validateSwapRequest cfg₀ numStr₀
        { fromToken := "XLM", toToken := "XLM", amount := 20000,
          slippage := 50 }).isValid = false
    ∧ ("Slippage must be between 0.1% and " ++ numStr₀ cfg₀.maxSlippage ++ "%")
      ∈ (validateSwapRequest cfg₀ numStr₀
          { fromToken := "XLM", toToken := "XLM", amount := 20000,
            slippage := 50 }).errors := by
  obtain ⟨_, hsame, _, hmax, hinv, hslip⟩ := validateSwapRequest_complete cfg₀
    numStr₀ { fromToken := "XLM", toToken := "XLM", amount := 20000, slippage := 50 }
  have hamt : (20000 : ℚ) > cfg₀.maxAmount := by norm_num [cfg₀]
  have hsl : (50 : ℚ) > cfg₀.maxSlippage := by norm_num [cfg₀]
  exact ⟨hsame rfl, hmax hamt, hinv (Or.inr hamt), (hslip (Or.inr hsl)).2⟩

/-! ## Claim C10: estimateSwap ignores its own validation -/

/-- Full characterization of `estimateSwap`: its outcome and its single
`GET /quote` oracle call are determined by the quote oracle's response
alone. -/
theorem estimateSwap_eq (cfg : SecurityConfig) (env : Env)
    (request : SwapRequest) :
    estimateSwap cfg env request =
      (match env.quoteResponse request.fromToken request.toToken
          (env.numStr request.amount) request.slippage with
      | .ok quote => ⟨.ok {
          fromToken := quote.fromToken
          toToken := quote.toToken
          fromAmount := parseFloat quote.fromAmount
          toAmount := parseFloat quote.toAmount
          minimumReceived := parseFloat quote.minimumReceived
          priceImpact := quote.priceImpact
          fee := parseFloat quote.fee
          path := quote.path }, [Event.getQuote]⟩
      | .error msg => ⟨.error (.generic ("Swap estimation failed: "
          ++ (if msg = "" then "Unknown Soroswap API error" else msg))),
          [Event.getQuote]⟩) := by
  rw [estimateSwap, soroswapGetQuote]
  cases hq : env.quoteResponse request.fromToken request.toToken
      (env.numStr request.amount) request.slippage with
  | ok quote =>
    simp [M.bind_def, M.pure_def, M.bind, M.pure, M.emit, M.tryCatch, hq]
  | error msg =>
    simp [M.bind_def, M.pure_def, M.bind, M.pure, M.emit, M.tryCatch,
      M.throw, hq]

/-- C10.  `estimateSwap` invokes `validateSwapRequest` but discards its
result: even for a request that fails validation, it neither returns nor
throws a validation error — the outcome (and the single `GET /quote` oracle
call) is determined by the quote oracle alone, so an invalid request still
yields a quote (or the oracle's wrapped error). -/
theorem estimateSwap_discards_validation (cfg : SecurityConfig) (env : Env)
    (request : SwapRequest)
    (_hinvalid : (validateSwapRequest cfg env.numStr request).isValid = false) :
    estimateSwap cfg env request =
      (match env.quoteResponse request.fromToken request.toToken
          (env.numStr request.amount) request.slippage with
      | .ok quote => ⟨.ok {
          fromToken := quote.fromToken
          toToken := quote.toToken
          fromAmount := parseFloat quote.fromAmount
          toAmount := parseFloat quote.toAmount
          minimumReceived := parseFloat quote.minimumReceived
          priceImpact := quote.priceImpact
          fee := parseFloat quote.fee
          path := quote.path }, [Event.getQuote]⟩
      | .error msg => ⟨.error (.generic ("Swap estimation failed: "
          ++ (if msg = "" then "Unknown Soroswap API error" else msg))),
          [Event.getQuote]⟩)
    ∧ (estimateSwap cfg env request).tr = [Event.getQuote] := by
  constructor
  · exact estimateSwap_eq cfg env request
  · rw [estimateSwap_eq cfg env request]
    cases env.quoteResponse request.fromToken request.toToken
        (env.numStr request.amount) request.slippage <;> rfl

/-- Quote returned by the witness oracle. -/
def quote₀ : SoroswapQuote :=
  { fromToken := "XLM", toToken := "USDC", fromAmount := "100",
    toAmount := "20", minimumReceived := "19.5", priceImpact := 1 / 2,
    fee := "0.1", path := ["XLM", "USDC"], estimatedGas := "100" }

/-- An environment whose quote oracle always answers `quote₀`. -/
def envQuote : Env :=
  { loadAccount := fun _ => .error (.http 404 "Not Found")
    quoteResponse := fun _ _ _ _ => .ok quote₀
    keypairPublic := fun _ => .error "bad secret"
    numStr := numStr₀
    timestampStr := "t"
    mockTxHash := "h" }

/-- Witness for C10 at a concrete invalid request (`XLM → XLM`): validation
fails, yet `estimateSwap` consults the quote oracle and returns the quote's
estimate. -/
theorem estimateSwap_discards_validation_witness :
    (estimateSwap cfg₀ envQuote
        { fromToken := "XLM", toToken := "XLM", amount := 100, slippage := 1 }).tr
      = [Event.getQuote] := by
  have hinvalid : (validateSwapRequest cfg₀ envQuote.numStr
      { fromToken := "XLM", toToken := "XLM", amount := 100, slippage := 1 }).isValid
      = false :=
    validateSwapRequest_invalid_of_mem cfg₀ envQuote.numStr _ _
      (validateSwapRequest_mem_same cfg₀ envQuote.numStr _ rfl)
  exact (estimateSwap_discards_validation cfg₀ envQuote _ hinvalid).2

/-! ## Claim C9: refreshWallet and the session map -/

/-- The ledger account used by the C9 counterexample. -/
def acct₁ : StellarAccount :=
  { publicKey := "G1", accountId := "G1", sequence := "1",
    balances := [{ asset := "XLM", assetType := "native", balance := "100" }] }

/-- A ledger on which only `G1` resolves. -/
def envWallet : Env :=
  { loadAccount := fun pk =>
      if pk = "G1" then .ok acct₁ else .error (.http 404 "Not Found")
    quoteResponse := fun _ _ _ _ => .error "no quotes"
    keypairPublic := fun _ => .error "bad secret"
    numStr := numStr₀
    timestampStr := "t"
    mockTxHash := "h" }

/-- The `WalletInfo` that `refreshWallet` builds for `G1`:
`availableXLM = max 0 (100 - 0.5) = 199/2`. -/
def walletInfo₁ : WalletInfo :=
  { publicKey := "G1", accountId := "G1", isConnected := true,
    balances := [{ asset := "XLM", assetType := "native", balance := "100" }],
    availableXLM := 199 / 2, trustlineCount := 0 }

set_option maxRecDepth 10000 in
unseal Rat.add Rat.sub Rat.mul Rat.inv in
theorem refreshWallet_G1_eval :
    refreshWallet envWallet [] "G1" = (.ok walletInfo₁, [("G1", walletInfo₁)]) := by
  decide

set_option maxRecDepth 10000 in
unseal Rat.add Rat.sub Rat.mul Rat.inv in
theorem calcAvail_acct₁ :
    calculateAvailableXLMBalance acct₁.balances = .ok (199 / 2) := by
  decide

/-- C9 counterexample.  The claim fails as stated: for a public key that was
never connected (the session map is empty) but still resolves on the ledger,
`refreshWallet` does not fail with `AccountNotFound` — it succeeds, returns
the freshly fetched `WalletInfo`, and creates the session entry. -/
theorem refreshWallet_never_connected_succeeds_cex :
    (refreshWallet envWallet [] "G1").1 = .ok walletInfo₁
    ∧ (∀ e, (refreshWallet envWallet [] "G1").1 ≠ .error e)
    ∧ (refreshWallet envWallet [] "G1").2 = [("G1", walletInfo₁)] := by
  have h := refreshWallet_G1_eval
  refine ⟨?_, ?_, ?_⟩
  · rw [h]
  · intro e he
    rw [h] at he
    exact absurd he (by simp)
  · rw [h]

/-- C9 amended.  `refreshWallet` never consults the session map: its result
value is independent of the session map, it succeeds for any address whose
account data resolves (never-connected or not) and overwrites/creates the
session entry with the freshly fetched `WalletInfo`; when `loadAccount`
fails (e.g. the address no longer resolves), it throws the
`convertStellarError` default — a `StellarError` with the connection-error
code whose message wraps `Failed to load account: ...` — not a
`StellarAccountNotFoundError`, and leaves the session map unchanged. -/
theorem refreshWallet_ignores_sessions (env : Env) (sessions : Sessions)
    (publicKey : String) :
    ((refreshWallet env sessions publicKey).1 =
      (refreshWallet env [] publicKey).1)
    ∧ (∀ err, env.loadAccount publicKey = .error err →
        refreshWallet env sessions publicKey =
          (.error (.stellar ("Failed to load account: " ++ err.message)),
            sessions))
    ∧ (∀ acct avail, env.loadAccount publicKey = .ok acct →
        calculateAvailableXLMBalance acct.balances = .ok avail →
        ∃ wi, refreshWallet env sessions publicKey =
            (.ok wi, mapSet publicKey wi sessions)
          ∧ mapFind publicKey (refreshWallet env sessions publicKey).2 = some wi
          ∧ wi.publicKey = acct.publicKey ∧ wi.isConnected = true
          ∧ wi.balances = acct.balances ∧ wi.availableXLM = avail) := by
  refine ⟨?_, ?_, ?_⟩
  · rw [refreshWallet, refreshWallet]
    cases (getAccount env publicKey).res with
    | error e => rfl
    | ok acct =>
      dsimp only
      cases calculateAvailableXLMBalance acct.balances with
      | error e => rfl
      | ok avail => rfl
  · intro err herr
    rw [refreshWallet, getAccount]
    simp [M.bind_def, M.bind, M.emit, M.throw, herr, Err.message,
      convertStellarError]
  · intro acct avail hacct havail
    have hres : (getAccount env publicKey).res = .ok acct := by
      rw [getAccount]
      simp [M.bind_def, M.bind, M.emit, M.pure, hacct]
    rw [refreshWallet, hres]
    dsimp only
    rw [havail]
    refine ⟨_, rfl, ?_, rfl, rfl, rfl, rfl⟩
    exact mapFind_mapSet_self ..

/-- Witness for C9's amended theorem at concrete inputs: on `envWallet`, the
unresolvable key `G2` fails with the wrapped connection-style `StellarError`
(leaving a non-empty session map untouched), and the resolvable key `G1`
succeeds and stores its entry. -/
theorem refreshWallet_ignores_sessions_witness :
    refreshWallet envWallet [("X", walletInfo₁)] "G2" =
      (.error (.stellar ("Failed to load account: " ++ "Not Found")),
        [("X", walletInfo₁)])
    ∧ ∃ wi, refreshWallet envWallet [] "G1" = (.ok wi, mapSet "G1" wi [])
        ∧ mapFind "G1" (refreshWallet envWallet [] "G1").2 = some wi
        ∧ wi.publicKey = acct₁.publicKey ∧ wi.isConnected = true
        ∧ wi.balances = acct₁.balances ∧ wi.availableXLM = 199 / 2 := by
  constructor
  · exact (refreshWallet_ignores_sessions envWallet [("X", walletInfo₁)]
      "G2").2.1 (.http 404 "Not Found") rfl
  · exact (refreshWallet_ignores_sessions envWallet [] "G1").2.2 acct₁
      (199 / 2) rfl calcAvail_acct₁

/-! ## Claim C8: compareBalances is a binary64 comparison, not an exact one -/

set_option maxRecDepth 20000 in
unseal Rat.add Rat.sub Rat.mul Rat.inv in
/-- C8 counterexample.  The claim fails as stated: `compareBalances` is
`parseFloat(a) >= parseFloat(b)`, a binary64 comparison.  The decimal
strings `9007199254740992` (2^53) and `9007199254740993` (2^53 + 1) denote
distinct rational values with the first strictly smaller, yet both round to
the binary64 value 2^53, so `compareBalances` answers `true` even though the
exact value of the balance is less than the exact value of the amount. -/
theorem compareBalances_not_exact_cex :
    compareBalances "9007199254740992" "9007199254740993" = .ok true
    ∧ parseDecimal "9007199254740992" = some 9007199254740992
    ∧ parseDecimal "9007199254740993" = some 9007199254740993
    ∧ ((9007199254740992 : ℚ) < 9007199254740993) := by
  decide

/-- C8 amended.  `compareBalances balance amount` compares the `parseFloat`
(binary64-rounded) values of the two decimal strings: it returns `true`
exactly when `roundToF64(balance) >= roundToF64(amount)`.  Exact-value
dominance is still sufficient — binary64 rounding is monotone, so an exact
balance at least the exact amount always yields `true` — but it is not
necessary: values closer together than one unit in the last place can
collapse (see the counterexample). -/
theorem compareBalances_float_semantics (a b : String) :
    (∀ va vb : ℚ, parseBalance a = .ok va → parseBalance b = .ok vb →
      compareBalances a b = .ok (decide (va ≥ vb)))
    ∧ (∀ ea eb : ℚ, parseDecimal a = some ea → parseDecimal b = some eb →
        0 ≤ ea → 0 ≤ eb → eb ≤ ea → compareBalances a b = .ok true)
    ∧ (∀ ea : ℚ, parseDecimal a = some ea → 0 ≤ ea →
        parseBalance a = .ok (roundToF64 ea)) := by
  have hparse : ∀ (s : String) (e : ℚ), parseDecimal s = some e → 0 ≤ e →
      parseBalance s = .ok (roundToF64 e) := by
    intro s e he hne
    have hf : parseFloat s = some (roundToF64 e) := by
      rw [parseFloat, he]
      rfl
    rw [parseBalance, hf]
    dsimp only
    rw [if_neg (not_lt.mpr (roundToF64_nonneg hne))]
  refine ⟨?_, ?_, fun ea hea hnea => hparse a ea hea hnea⟩
  · intro va vb ha hb
    unfold compareBalances
    rw [ha, hb]
    rfl
  · intro ea eb hea heb hnea hneb hle
    unfold compareBalances
    rw [hparse a ea hea hnea, hparse b eb heb hneb]
    show (Except.ok (decide (roundToF64 ea ≥ roundToF64 eb)) : Except Err Bool)
      = .ok true
    rw [decide_eq_true (roundToF64_mono hneb hle)]

set_option maxRecDepth 10000 in
unseal Rat.add Rat.sub Rat.mul Rat.inv in
theorem parse_small_evals :
    parseBalance "2" = .ok 2 ∧ parseBalance "1" = .ok 1
    ∧ parseDecimal "2" = some 2 ∧ parseDecimal "1" = some 1 := by
  decide

/-- Witness for C8's amended theorem at the concrete strings `2` and `1`:
the comparison is the binary64 comparison of 2 and 1, and exact dominance
yields `true`. -/
theorem compareBalances_float_semantics_witness :
    compareBalances "2" "1" = .ok (decide ((2 : ℚ) ≥ 1))
    ∧ compareBalances "2" "1" = .ok true
    ∧ parseBalance "2" = .ok (roundToF64 2) := by
  obtain ⟨h1, h2, h3⟩ := compareBalances_float_semantics "2" "1"
  obtain ⟨hp2, hp1, hd2, hd1⟩ := parse_small_evals
  exact ⟨h1 2 1 hp2 hp1, h2 2 1 hd2 hd1 (by norm_num) (by norm_num) (by norm_num),
    h3 2 hd2 (by norm_num)⟩

/-! ## Structural lemmas for the swap pipeline (towards C1 and C2) -/

theorem M.bind_spec_ok {α β : Type} (x : M α) (f : α → M β) (a : α)
    (h : x.res = .ok a) : M.bind x f = ⟨(f a).res, x.tr ++ (f a).tr⟩ := by
  unfold M.bind
  rw [h]

theorem M.bind_spec_error {α β : Type} (x : M α) (f : α → M β) (e : Err)
    (h : x.res = .error e) : M.bind x f = ⟨.error e, x.tr⟩ := by
  unfold M.bind
  rw [h]

theorem M.tryCatch_rethrow {α : Type} (x : M α) :
    M.tryCatch x (fun e => M.throw e) = x := by
  obtain ⟨r, t⟩ := x
  cases r <;> simp [M.tryCatch, M.throw]

theorem M.bind_tr_prefix {α β : Type} (x : M α) (f : α → M β) :
    ∃ s, (M.bind x f).tr = x.tr ++ s := by
  unfold M.bind
  cases h : x.res with
  | ok a => exact ⟨(f a).tr, rfl⟩
  | error e => exact ⟨[], by simp⟩

/-- Non-emptiness of messages built by appending onto a non-empty literal. -/
theorem append_ne_empty_left (a b : String) (ha : a.length ≠ 0) :
    a ++ b ≠ "" := by
  intro h
  have hl := congrArg String.length h
  rw [String.length_append] at hl
  simp only [String.length_empty] at hl
  omega

/-- `parseBalance` only throws `Invalid balance: <input>`. -/
theorem parseBalance_error (s : String) (e : Err)
    (h : parseBalance s = .error e) :
    e = .generic ("Invalid balance: " ++ s) := by
  rw [parseBalance] at h
  cases hp : parseFloat s with
  | none =>
    rw [hp] at h
    cases h
    rfl
  | some q =>
    rw [hp] at h
    dsimp only at h
    by_cases hq : q < 0
    · rw [if_pos hq] at h
      cases h
      rfl
    · rw [if_neg hq] at h
      cases h

/-- `parseBalanceOfNum` only throws `Invalid balance: <rendering>`. -/
theorem parseBalanceOfNum_error (numStr : ℚ → String) (x : ℚ) (e : Err)
    (h : parseBalanceOfNum numStr x = .error e) :
    e = .generic ("Invalid balance: " ++ numStr x) := by
  rw [parseBalanceOfNum] at h
  by_cases hx : x < 0
  · rw [if_pos hx] at h
    cases h
    rfl
  · rw [if_neg hx] at h
    cases h

/-- `compareBalances(balance, amount.toString())` only throws
`Invalid balance: ...` errors. -/
theorem compareBalancesToAmount_error (numStr : ℚ → String)
    (balance : String) (amount : ℚ) (e : Err)
    (h : compareBalancesToAmount numStr balance amount = .error e) :
    ∃ s, e = .generic ("Invalid balance: " ++ s) := by
  rw [compareBalancesToAmount] at h
  cases hp : parseBalance balance with
  | error e1 =>
    rw [hp] at h
    have h2 : Except.error (α := Bool) e1 = Except.error e := h
    injection h2 with h3
    subst h3
    exact ⟨balance, parseBalance_error balance e1 hp⟩
  | ok v1 =>
    rw [hp] at h
    cases hq : parseBalanceOfNum numStr amount with
    | error e2 =>
      rw [hq] at h
      have h2 : Except.error (α := Bool) e2 = Except.error e := h
      injection h2 with h3
      subst h3
      exact ⟨numStr amount, parseBalanceOfNum_error numStr amount e2 hq⟩
    | ok v2 =>
      rw [hq] at h
      have h2 : Except.ok (ε := Err) (decide (v1 ≥ v2)) = Except.error e := h
      cases h2

/-- Full characterization of `accountExists`: one `loadAccount` call, with
the result read off the oracle's response. -/
theorem accountExists_eq (env : Env) (publicKey : String) :
    accountExists env publicKey =
      ⟨match env.loadAccount publicKey with
        | .ok _ => .ok true
        | .error (LoadAccountError.http status msg) =>
          if status = 404 then .ok false else .error (.generic msg)
        | .error (.other msg) => .error (.generic msg),
       [Event.loadAccount]⟩ := by
  rw [accountExists]
  rcases hl : env.loadAccount publicKey with e | a
  · rcases e with ⟨s, m⟩ | m
    · by_cases hs : s = 404 <;>
        simp [M.bind_def, M.bind, M.emit, M.pure, M.throw, hl, hs]
    · simp [M.bind_def, M.bind, M.emit, M.throw, hl]
  · simp [M.bind_def, M.bind, M.emit, M.pure, hl]

/-- Full characterization of `stellarClient.getAccount`. -/
theorem getAccount_eq (env : Env) (publicKey : String) :
    getAccount env publicKey =
      ⟨match env.loadAccount publicKey with
        | .ok a => .ok a
        | .error e =>
          .error (.generic ("Failed to load account: " ++ e.message)),
       [Event.loadAccount]⟩ := by
  rw [getAccount]
  rcases hl : env.loadAccount publicKey with e | a <;>
    simp [M.bind_def, M.bind, M.emit, M.pure, M.throw, hl]

/-- Full characterization of `stellarClient.getBalances`. -/
theorem getBalances_eq (env : Env) (publicKey : String) :
    getBalances env publicKey =
      ⟨match env.loadAccount publicKey with
        | .ok a => .ok a.balances
        | .error e =>
          .error (.generic ("Failed to load account: " ++ e.message)),
       [Event.loadAccount]⟩ := by
  rw [getBalances, getAccount_eq]
  rcases hl : env.loadAccount publicKey with e | a <;>
    simp [M.bind_def, M.bind, M.pure, M.tryCatch, M.throw, hl]

/-- An `M` outcome with a successful result is the pair of that result and
its trace. -/
theorem M.exists_ok_pair {α : Type} (x : M α) (hok : x.res.isOk = true) :
    ∃ a, x = ⟨.ok a, x.tr⟩ := by
  obtain ⟨r, t⟩ := x
  cases r with
  | error e => simp [Except.isOk, Except.toBool] at hok
  | ok a => exact ⟨a, rfl⟩

/-- `hasTrustline` never throws. -/
theorem hasTrustline_isOk (env : Env) (pk sym : String) :
    (hasTrustline env pk sym).res.isOk = true := by
  rw [hasTrustline]
  by_cases hx : strUpper sym = "XLM"
  · rw [if_pos hx]
    rfl
  · rw [if_neg hx, getBalances_eq]
    rcases hl : env.loadAccount pk with e | a
    · simp [M.bind_def, M.bind, M.pure, M.tryCatch, Except.isOk, Except.toBool]
    · rcases hk : KNOWN_TOKENS (strUpper sym) with _ | ti <;>
        simp [hk, M.bind_def, M.bind, M.pure, M.tryCatch, Except.isOk,
          Except.toBool]

/-- `hasTrustline` makes no oracle call on XLM and one `loadAccount` call
otherwise. -/
theorem hasTrustline_tr (env : Env) (pk sym : String) :
    (hasTrustline env pk sym).tr = []
    ∨ (hasTrustline env pk sym).tr = [Event.loadAccount] := by
  rw [hasTrustline]
  by_cases hx : strUpper sym = "XLM"
  · rw [if_pos hx]
    exact Or.inl rfl
  · rw [if_neg hx, getBalances_eq]
    right
    rcases hl : env.loadAccount pk with e | a
    · simp [M.bind_def, M.bind, M.pure, M.tryCatch]
    · rcases hk : KNOWN_TOKENS (strUpper sym) with _ | ti <;>
        simp [hk, M.bind_def, M.bind, M.pure, M.tryCatch]

/-- `getTokenBalanceInfo` never throws. -/
theorem getTokenBalanceInfo_isOk (env : Env) (pk sym : String) :
    (getTokenBalanceInfo env pk sym).res.isOk = true := by
  rw [getTokenBalanceInfo, getBalances_eq]
  rcases hl : env.loadAccount pk with e | a
  · simp [M.bind_def, M.bind, M.pure, M.tryCatch, Except.isOk, Except.toBool]
  · by_cases hx : strUpper sym = "XLM"
    · simp [hx, M.bind_def, M.bind, M.pure, M.tryCatch, Except.isOk,
        Except.toBool]
    · rcases hk : KNOWN_TOKENS (strUpper sym) with _ | ti <;>
        simp [hx, hk, M.bind_def, M.bind, M.pure, M.tryCatch, Except.isOk,
          Except.toBool]

/-- `getTokenBalanceInfo` makes exactly one `loadAccount` call. -/
theorem getTokenBalanceInfo_tr (env : Env) (pk sym : String) :
    (getTokenBalanceInfo env pk sym).tr = [Event.loadAccount] := by
  rw [getTokenBalanceInfo, getBalances_eq]
  rcases hl : env.loadAccount pk with e | a
  · simp [M.bind_def, M.bind, M.pure, M.tryCatch]
  · by_cases hx : strUpper sym = "XLM"
    · simp [hx, M.bind_def, M.bind, M.pure, M.tryCatch]
    · rcases hk : KNOWN_TOKENS (strUpper sym) with _ | ti <;>
        simp [hx, hk, M.bind_def, M.bind, M.pure, M.tryCatch]

/-- `walletService.getTokenBalance` never throws and makes one
`loadAccount` call. -/
theorem getTokenBalance_spec (env : Env) (pk sym : String) :
    ∃ bal, getTokenBalance env pk sym = ⟨.ok bal, [Event.loadAccount]⟩ := by
  obtain ⟨v, hinfo⟩ := M.exists_ok_pair _ (getTokenBalanceInfo_isOk env pk sym)
  rw [getTokenBalanceInfo_tr env pk sym] at hinfo
  rw [getTokenBalance]
  simp only [M.bind_def, M.pure_def]
  rw [hinfo]
  clear hinfo
  refine ⟨(match v with | some b => b.balance | none => "0"), ?_⟩
  simp [M.bind, M.pure, M.tryCatch]

/-- `performSwap` contacts no oracle and always succeeds with the mock
result. -/
theorem performSwap_eq (env : Env) (request : SwapRequest)
    (estimate : SwapEstimate) :
    performSwap env request estimate =
      ⟨.ok { success := true
             transactionHash := some env.mockTxHash
             fromToken := request.fromToken
             toToken := request.toToken
             fromAmount := request.amount
             toAmount := estimate.toAmount
             actualReceived := estimate.toAmount
             fee := estimate.fee
             timestamp := env.timestampStr
             error := none }, []⟩ := rfl

/-- Peeling lemma for non-emptiness of left-nested string concatenations. -/
theorem append_length_ne_zero (a b : String) (ha : a.length ≠ 0) :
    (a ++ b).length ≠ 0 := by
  rw [String.length_append]
  omega

/-- The message of a `StellarInsufficientBalanceError` is never empty. -/
theorem insufficient_message_ne_empty (a r v p : String) :
    Err.message (.insufficientBalance a r v p) ≠ "" := by
  show "Insufficient balance for " ++ a ++ ". Required: " ++ r
    ++ ", Available: " ++ v ≠ ""
  exact append_ne_empty_left _ _ (append_length_ne_zero _ _
    (append_length_ne_zero _ _ (append_length_ne_zero _ _
      (append_length_ne_zero _ _ (by decide)))))

/-- A trace without quote calls consists of `loadAccount` calls only. -/
theorem replicate_of_not_getQuote (tr : List Event)
    (h : Event.getQuote ∉ tr) :
    tr = List.replicate tr.length Event.loadAccount := by
  apply List.eq_replicate_of_mem
  intro b hb
  cases b with
  | loadAccount => rfl
  | getQuote => exact absurd hb h

/-- Well-formedness of the external world, reflecting the JavaScript runtime:
a rejected `server.loadAccount` promise carries an `Error` with a non-empty
`message`, and a failed `Keypair.fromSecret(...)` throws an `Error` with a
non-empty `message`. -/
def Env.wf (env : Env) : Prop :=
  (∀ pk e, env.loadAccount pk = .error e → LoadAccountError.message e ≠ "")
  ∧ (∀ s m, env.keypairPublic s = .error m → m ≠ "")

/-- `validateAccountForSwap` never consults the quote oracle, always makes at
least one ledger call, and (over a well-formed world) every error it throws
carries a non-empty message. -/
theorem validateAccountForSwap_spec (env : Env) (pk : String)
    (request : SwapRequest) :
    Event.getQuote ∉ (validateAccountForSwap env pk request).tr
    ∧ (validateAccountForSwap env pk request).tr ≠ []
    ∧ ∀ e, (validateAccountForSwap env pk request).res = .error e →
        (∀ pk2 e2, env.loadAccount pk2 = .error e2 →
            LoadAccountError.message e2 ≠ "") →
        Err.message e ≠ "" := by
  obtain ⟨bF, hF⟩ :=
    M.exists_ok_pair _ (hasTrustline_isOk env pk request.fromToken)
  obtain ⟨nF, hnF⟩ : ∃ nF, (hasTrustline env pk request.fromToken).tr
      = List.replicate nF Event.loadAccount := by
    rcases hasTrustline_tr env pk request.fromToken with h | h
    · exact ⟨0, h⟩
    · exact ⟨1, h⟩
  rw [hnF] at hF
  obtain ⟨bT, hT⟩ :=
    M.exists_ok_pair _ (hasTrustline_isOk env pk request.toToken)
  obtain ⟨nT, hnT⟩ : ∃ nT, (hasTrustline env pk request.toToken).tr
      = List.replicate nT Event.loadAccount := by
    rcases hasTrustline_tr env pk request.toToken with h | h
    · exact ⟨0, h⟩
    · exact ⟨1, h⟩
  rw [hnT] at hT
  obtain ⟨bal, hBal⟩ := getTokenBalance_spec env pk request.fromToken
  have hAE := accountExists_eq env pk
  rw [validateAccountForSwap, M.tryCatch_rethrow, validateAccountForSwapBody]
  rcases hl : env.loadAccount pk with e0 | a0
  · rw [hl] at hAE
    rcases e0 with ⟨s, m⟩ | m
    · by_cases hs : s = 404
      · simp only [hs, if_pos] at hAE
        refine ⟨?_, ?_, ?_⟩
        · simp [hAE, M.bind_def, M.pure_def, M.bind, M.pure, M.throw]
        · simp [hAE, M.bind_def, M.pure_def, M.bind, M.pure, M.throw]
        · intro e he hwf
          simp [hAE, M.bind_def, M.pure_def, M.bind, M.pure, M.throw] at he
          subst he
          exact append_ne_empty_left _ _ (by decide)
      · simp only [if_neg hs] at hAE
        refine ⟨?_, ?_, ?_⟩
        · simp [hAE, M.bind_def, M.pure_def, M.bind, M.pure, M.throw]
        · simp [hAE, M.bind_def, M.pure_def, M.bind, M.pure, M.throw]
        · intro e he hwf
          simp [hAE, M.bind_def, M.pure_def, M.bind, M.pure, M.throw] at he
          subst he
          exact hwf pk (.http s m) hl
    · refine ⟨?_, ?_, ?_⟩
      · simp [hAE, M.bind_def, M.pure_def, M.bind, M.pure, M.throw]
      · simp [hAE, M.bind_def, M.pure_def, M.bind, M.pure, M.throw]
      · intro e he hwf
        simp [hAE, M.bind_def, M.pure_def, M.bind, M.pure, M.throw] at he
        subst he
        exact hwf pk (.other m) hl
  · rw [hl] at hAE
    by_cases hbF : bF = false ∧ request.fromToken ≠ "XLM"
    · refine ⟨?_, ?_, ?_⟩
      · simp [hAE, hF, hbF, M.bind_def, M.pure_def, M.bind, M.pure, M.throw,
          List.mem_append, List.mem_replicate]
      · simp [hAE, hF, hbF, M.bind_def, M.pure_def, M.bind, M.pure, M.throw]
      · intro e he hwf
        simp [hAE, hF, hbF, M.bind_def, M.pure_def, M.bind, M.pure,
          M.throw] at he
        subst he
        exact append_ne_empty_left _ _ (by decide)
    · by_cases hbT : bT = false ∧ request.toToken ≠ "XLM"
      · refine ⟨?_, ?_, ?_⟩
        · simp [hAE, hF, hT, hbF, hbT, M.bind_def, M.pure_def, M.bind, M.pure,
            M.throw, List.mem_append, List.mem_replicate]
        · simp [hAE, hF, hT, hbF, hbT, M.bind_def, M.pure_def, M.bind, M.pure,
            M.throw]
        · intro e he hwf
          simp [hAE, hF, hT, hbF, hbT, M.bind_def, M.pure_def, M.bind, M.pure,
            M.throw] at he
          subst he
          exact append_ne_empty_left _ _ (by decide)
      · rcases hcmp : compareBalancesToAmount env.numStr bal request.amount
            with ec | cmp
        · refine ⟨?_, ?_, ?_⟩
          · simp [hAE, hF, hT, hBal, hbF, hbT, hcmp, M.bind_def, M.pure_def,
              M.bind, M.pure, M.throw, M.ofExcept, List.mem_append,
              List.mem_replicate]
          · simp [hAE, hF, hT, hBal, hbF, hbT, hcmp, M.bind_def, M.pure_def,
              M.bind, M.pure, M.throw, M.ofExcept]
          · intro e he hwf
            simp [hAE, hF, hT, hBal, hbF, hbT, hcmp, M.bind_def, M.pure_def,
              M.bind, M.pure, M.throw, M.ofExcept] at he
            subst he
            obtain ⟨s, hs⟩ :=
              compareBalancesToAmount_error env.numStr bal request.amount ec hcmp
            rw [hs]
            exact append_ne_empty_left _ _ (by decide)
        · by_cases hc : cmp = false
          · refine ⟨?_, ?_, ?_⟩
            · simp [hAE, hF, hT, hBal, hbF, hbT, hcmp, hc, M.bind_def,
                M.pure_def, M.bind, M.pure, M.throw, M.ofExcept,
                List.mem_append, List.mem_replicate]
            · simp [hAE, hF, hT, hBal, hbF, hbT, hcmp, hc, M.bind_def,
                M.pure_def, M.bind, M.pure, M.throw, M.ofExcept]
            · intro e he hwf
              simp [hAE, hF, hT, hBal, hbF, hbT, hcmp, hc, M.bind_def,
                M.pure_def, M.bind, M.pure, M.throw, M.ofExcept] at he
              subst he
              exact insufficient_message_ne_empty _ _ _ _
          · refine ⟨?_, ?_, ?_⟩
            · simp [hAE, hF, hT, hBal, hbF, hbT, hcmp, hc, M.bind_def,
                M.pure_def, M.bind, M.pure, M.throw, M.ofExcept,
                List.mem_append, List.mem_replicate]
            · simp [hAE, hF, hT, hBal, hbF, hbT, hcmp, hc, M.bind_def,
                M.pure_def, M.bind, M.pure, M.throw, M.ofExcept]
            · intro e he hwf
              simp [hAE, hF, hT, hBal, hbF, hbT, hcmp, hc, M.bind_def,
                M.pure_def, M.bind, M.pure, M.throw, M.ofExcept] at he

/-- Orchestration spec for the `try` body of `executeSwap`: a successful run
yields `success == true`; over a well-formed world every thrown error has a
non-empty message; and whenever the quote oracle is reached, the entire
earlier trace consists of (at least one) ledger `loadAccount` calls — the
account pre-checks run before the quote. -/
theorem executeSwapBody_spec (cfg : SecurityConfig) (scfg : StellarCfg)
    (env : Env) (request : SwapRequest) :
    (∀ r, (executeSwapBody cfg scfg env request).res = .ok r →
        r.success = true)
    ∧ (∀ e, (executeSwapBody cfg scfg env request).res = .error e →
        Env.wf env → Err.message e ≠ "")
    ∧ (Event.getQuote ∈ (executeSwapBody cfg scfg env request).tr →
        ∃ n, 1 ≤ n ∧ (executeSwapBody cfg scfg env request).tr
          = List.replicate n Event.loadAccount ++ [Event.getQuote]) := by
  rw [executeSwapBody]
  by_cases hv : (validateSwapRequest cfg env.numStr request).isValid = false
  · refine ⟨?_, ?_, ?_⟩
    · simp [hv, M.bind_def, M.pure_def, M.bind, M.pure, M.throw]
    · intro e he hwf
      simp [hv, M.bind_def, M.pure_def, M.bind, M.pure, M.throw] at he
      subst he
      exact append_ne_empty_left _ _ (by decide)
    · simp [hv, M.bind_def, M.pure_def, M.bind, M.pure, M.throw]
  · rcases hft : firstTruthy request.accountSecret scfg.defaultAccountSecret
        with _ | s
    · refine ⟨?_, ?_, ?_⟩
      · simp [hv, hft, M.bind_def, M.pure_def, M.bind, M.pure, M.throw]
      · intro e he hwf
        simp [hv, hft, M.bind_def, M.pure_def, M.bind, M.pure, M.throw] at he
        subst he
        decide
      · simp [hv, hft, M.bind_def, M.pure_def, M.bind, M.pure, M.throw]
    · by_cases hs : s = ""
      · refine ⟨?_, ?_, ?_⟩
        · simp [hv, hft, hs, M.bind_def, M.pure_def, M.bind, M.pure, M.throw]
        · intro e he hwf
          simp [hv, hft, hs, M.bind_def, M.pure_def, M.bind, M.pure,
            M.throw] at he
          subst he
          decide
        · simp [hv, hft, hs, M.bind_def, M.pure_def, M.bind, M.pure, M.throw]
      · rcases hkp : env.keypairPublic s with msg | pkey
        · refine ⟨?_, ?_, ?_⟩
          · simp [hv, hft, hs, hkp, M.bind_def, M.pure_def, M.bind, M.pure,
              M.throw]
          · intro e he hwf
            simp [hv, hft, hs, hkp, M.bind_def, M.pure_def, M.bind, M.pure,
              M.throw] at he
            subst he
            exact hwf.2 s msg hkp
          · simp [hv, hft, hs, hkp, M.bind_def, M.pure_def, M.bind, M.pure,
              M.throw]
        · obtain ⟨hq, hne, herr⟩ := validateAccountForSwap_spec env pkey request
          rcases hvres : (validateAccountForSwap env pkey request).res
              with ev | u
          · refine ⟨?_, ?_, ?_⟩
            · intro r hr
              simp [hv, hft, hs, hkp, M.bind_def, M.pure_def, M.bind, M.pure,
                M.throw, hvres] at hr
            · intro e he hwf
              simp [hv, hft, hs, hkp, M.bind_def, M.pure_def, M.bind, M.pure,
                M.throw, hvres] at he
              subst he
              exact herr _ hvres hwf.1
            · intro hmem
              simp [hv, hft, hs, hkp, M.bind_def, M.pure_def, M.bind, M.pure,
                M.throw, hvres] at hmem
              exact absurd hmem hq
          · rcases hquote : env.quoteResponse request.fromToken request.toToken
                (env.numStr request.amount) request.slippage with msg | quote
            · refine ⟨?_, ?_, ?_⟩
              · intro r hr
                simp [hv, hft, hs, hkp, hquote, M.bind_def, M.pure_def, M.bind,
                  M.pure, M.throw, hvres,
                  estimateSwap_eq] at hr
              · intro e he hwf
                simp [hv, hft, hs, hkp, hquote, M.bind_def, M.pure_def, M.bind,
                  M.pure, M.throw, hvres,
                  estimateSwap_eq] at he
                subst he
                exact append_ne_empty_left _ _ (by decide)
              · intro hmem
                refine ⟨(validateAccountForSwap env pkey request).tr.length,
                  List.length_pos_of_ne_nil hne, ?_⟩
                simp [hv, hft, hs, hkp, hquote, M.bind_def, M.pure_def, M.bind,
                  M.pure, M.throw, hvres, estimateSwap_eq]
                exact replicate_of_not_getQuote _ hq
            · refine ⟨?_, ?_, ?_⟩
              · intro r hr
                simp [hv, hft, hs, hkp, hquote, M.bind_def, M.pure_def, M.bind,
                  M.pure, M.throw, hvres, estimateSwap_eq,
                  performSwap_eq] at hr
                rw [← hr]
              · intro e he hwf
                simp [hv, hft, hs, hkp, hquote, M.bind_def, M.pure_def, M.bind,
                  M.pure, M.throw, hvres, estimateSwap_eq,
                  performSwap_eq] at he
              · intro hmem
                refine ⟨(validateAccountForSwap env pkey request).tr.length,
                  List.length_pos_of_ne_nil hne, ?_⟩
                simp [hv, hft, hs, hkp, hquote, M.bind_def, M.pure_def, M.bind,
                  M.pure, M.throw, hvres, estimateSwap_eq,
                  performSwap_eq]
                exact replicate_of_not_getQuote _ hq

/-- The top-level catch of `executeSwap` runs no oracle call of its own, so
the observable trace is exactly the body's trace. -/
theorem executeSwap_tr (cfg : SecurityConfig) (scfg : StellarCfg) (env : Env)
    (request : SwapRequest) :
    (executeSwap cfg scfg env request).tr
      = (executeSwapBody cfg scfg env request).tr := by
  rw [executeSwap]
  unfold M.tryCatch
  rcases hb : (executeSwapBody cfg scfg env request).res with e | r
  · simp [M.pure]
  · simp

/-! ## Claim C1: executeSwap never throws -/

/-- C1.  `executeSwap` never propagates an exception: over a well-formed
world (rejected promises carry non-empty messages), every run resolves to a
`SwapResult`, and any failure — during validation, quoting, pre-checking
(including an insufficient balance) or execution — surfaces as
`success == false` with `toAmount == 0`, `fee == 0` and a non-empty error
message; in particular, when the failure is a
`StellarInsufficientBalanceError` thrown by the balance pre-check, the
result has `success == false` and its error message is the
balance-mentioning `Insufficient balance for <asset>. Required: <required>,
Available: <available>`. -/
theorem executeSwap_never_throws (cfg : SecurityConfig) (scfg : StellarCfg)
    (env : Env) (request : SwapRequest) (hwf : Env.wf env) :
    ∃ r, (executeSwap cfg scfg env request).res = .ok r
      ∧ (r.success = false →
          r.toAmount = some 0 ∧ r.fee = some 0
            ∧ ∃ m, r.error = some m ∧ m ≠ "")
      ∧ (∀ asset required available pk,
          (executeSwapBody cfg scfg env request).res
            = .error (.insufficientBalance asset required available pk) →
          r.success = false
            ∧ r.error = some ("Insufficient balance for " ++ asset
                ++ ". Required: " ++ required
                ++ ", Available: " ++ available)) := by
  obtain ⟨hok, herr, -⟩ := executeSwapBody_spec cfg scfg env request
  rw [executeSwap]
  unfold M.tryCatch
  rcases hb : (executeSwapBody cfg scfg env request).res with e | r
  · refine ⟨swapFailureResult env request e, ?_, ?_, ?_⟩
    · simp [M.pure]
    · intro _
      exact ⟨rfl, rfl, e.message, rfl, herr e hb hwf⟩
    · intro asset required available pk hins
      injection hins with h
      subst h
      exact ⟨rfl, rfl⟩
  · refine ⟨r, ?_, ?_, ?_⟩
    · simp
    · intro hfalse
      rw [hok r hb] at hfalse
      cases hfalse
    · intro asset required available pk hins
      cases hins

/-- The ledger account used by the C1/C2 scenarios: a funded account holding
5 XLM and a USDC trustline. -/
def acctPre : StellarAccount :=
  { publicKey := "PK", accountId := "PK", sequence := "1",
    balances :=
      [{ asset := "XLM", assetType := "native", balance := "5" },
       { asset := "USDC", assetType := "credit_alphanum4",
         assetCode := some "USDC",
         assetIssuer :=
           some "GA5ZSEJYB37JRC5AVCIA5MOP4RHTM335X2KGX3IHOJAPP5RE34K4KZVN",
         balance := "0" }] }

/-- A world where `PK` resolves to `acctPre` and the quote oracle always
answers `quote₀`; the swap request asks for more XLM than the account
holds. -/
def envPre : Env :=
  { loadAccount := fun _ => .ok acctPre
    quoteResponse := fun _ _ _ _ => .ok quote₀
    keypairPublic := fun _ => .ok "PK"
    numStr := numStr₀
    timestampStr := "t"
    mockTxHash := "h" }

/-- A Stellar configuration with a default signing secret. -/
def scfg₀ : StellarCfg := { defaultAccountSecret := some "S" }

/-- A valid swap request for 10 XLM → USDC at 1% slippage. -/
def req₀ : SwapRequest :=
  { fromToken := "XLM", toToken := "USDC", amount := 10, slippage := 1 }

/-- `envPre` is well-formed: neither oracle ever rejects. -/
theorem envPre_wf : Env.wf envPre :=
  ⟨(fun _ _ h => nomatch h), (fun _ _ h => nomatch h)⟩

set_option maxRecDepth 20000 in
unseal Rat.add Rat.sub Rat.mul Rat.inv in
/-- Witness for C1 at a concrete input: with 5 XLM on the ledger and a
request to swap 10 XLM, the body throws the insufficient-balance error and
`executeSwap` resolves (never throws) with `success = false` and the
balance-mentioning error message. -/
theorem executeSwap_never_throws_witness :
    Env.wf envPre
    ∧ (executeSwapBody cfg₀ scfg₀ envPre req₀).res
        = .error (.insufficientBalance "XLM" "N" "5" "PK")
    ∧ ∃ r, (executeSwap cfg₀ scfg₀ envPre req₀).res = .ok r
        ∧ r.success = false ∧ r.toAmount = some 0 ∧ r.fee = some 0
        ∧ r.error
            = some "Insufficient balance for XLM. Required: N, Available: 5" := by
  have hbody : (executeSwapBody cfg₀ scfg₀ envPre req₀).res
      = .error (.insufficientBalance "XLM" "N" "5" "PK") := by decide
  obtain ⟨r, hok, hfail, hins⟩ :=
    executeSwap_never_throws cfg₀ scfg₀ envPre req₀ envPre_wf
  obtain ⟨hsf, herrm⟩ := hins "XLM" "N" "5" "PK" hbody
  obtain ⟨hto, hfee, -⟩ := hfail hsf
  refine ⟨envPre_wf, hbody, r, hok, hsf, hto, hfee, ?_⟩
  rw [herrm]
  rfl

/-! ## Claim C2: phase order of executeSwap -/

set_option maxRecDepth 20000 in
unseal Rat.add Rat.sub Rat.mul Rat.inv in
/-- C2 counterexample.  The spec's phase order (quote before the account
pre-checks) does not match the code: on a request that reaches the account
pre-checks and fails the balance check, the ledger has been consulted but
the quote oracle never was — so the quote cannot have been obtained before
the pre-checks ran. -/
theorem executeSwap_quote_not_before_prechecks_cex :
    Event.loadAccount ∈ (executeSwap cfg₀ scfg₀ envPre req₀).tr
    ∧ Event.getQuote ∉ (executeSwap cfg₀ scfg₀ envPre req₀).tr := by
  decide

/-- C2 (amended).  `executeSwap` proceeds VALIDATING → PRE-CHECKING →
QUOTING → EXECUTING: whenever the quote oracle is consulted, the entire
earlier trace consists of (at least one) ledger `loadAccount` pre-check
calls, and the pre-check phase itself never consults the quote oracle. -/
theorem executeSwap_prechecks_before_quote (cfg : SecurityConfig)
    (scfg : StellarCfg) (env : Env) (request : SwapRequest) :
    (Event.getQuote ∈ (executeSwap cfg scfg env request).tr →
      ∃ n, 1 ≤ n ∧ (executeSwap cfg scfg env request).tr
        = List.replicate n Event.loadAccount ++ [Event.getQuote])
    ∧ ∀ pk, Event.getQuote ∉ (validateAccountForSwap env pk request).tr := by
  constructor
  · intro hmem
    rw [executeSwap_tr] at hmem ⊢
    exact (executeSwapBody_spec cfg scfg env request).2.2 hmem
  · intro pk
    exact (validateAccountForSwap_spec env pk request).1

/-- The C2-witness account: `acctPre` with enough XLM to cover the swap. -/
def acctGood : StellarAccount :=
  { publicKey := "PK", accountId := "PK", sequence := "1",
    balances :=
      [{ asset := "XLM", assetType := "native", balance := "50" },
       { asset := "USDC", assetType := "credit_alphanum4",
         assetCode := some "USDC",
         assetIssuer :=
           some "GA5ZSEJYB37JRC5AVCIA5MOP4RHTM335X2KGX3IHOJAPP5RE34K4KZVN",
         balance := "0" }] }

/-- A world on which `req₀` swaps successfully. -/
def envGood : Env :=
  { loadAccount := fun _ => .ok acctGood
    quoteResponse := fun _ _ _ _ => .ok quote₀
    keypairPublic := fun _ => .ok "PK"
    numStr := numStr₀
    timestampStr := "t"
    mockTxHash := "h" }

set_option maxRecDepth 20000 in
unseal Rat.add Rat.sub Rat.mul Rat.inv in
theorem envGood_quote_reached :
    Event.getQuote ∈ (executeSwap cfg₀ scfg₀ envGood req₀).tr := by
  decide

/-- Witness for C2's amended theorem at a concrete successful run: the quote
oracle is reached, and the trace is three `loadAccount` pre-check calls
followed by the single quote call. -/
theorem executeSwap_prechecks_before_quote_witness :
    Event.getQuote ∈ (executeSwap cfg₀ scfg₀ envGood req₀).tr
    ∧ ∃ n, 1 ≤ n ∧ (executeSwap cfg₀ scfg₀ envGood req₀).tr
        = List.replicate n Event.loadAccount ++ [Event.getQuote] :=
  ⟨envGood_quote_reached,
    (executeSwap_prechecks_before_quote cfg₀ scfg₀ envGood req₀).1
      envGood_quote_reached⟩

end Soboro
